import Mathlib

/-!
Shallow embedding of the reconciliation engine of the dnsmgr repository
(sources: dnsmgr.py, dnsmgr_util.py, dnsmgr_bind.py, dnsmgr_isc_bind.py,
dnsmgr_isc_dhcp.py, file_loader.py), together with theorems settling the
frozen claims about it.

Files are modelled as lists of lines (each line is stored without its
trailing newline; the byte size of a file is the sum of line lengths plus
one newline per line).  All file contents are ASCII, so Python string
indices and byte offsets coincide.  The filesystem is an association list
from path to content.  Commands with observable effects (zone reload,
daemon restart, file move/install) are recorded in an event trace.
-/

namespace Dnsmgr

/-! ### Python string primitives -/

/-- Python `str.isdigit` on one ASCII character. -/
def pyIsDigitChar (c : Char) : Bool := c.isDigit

/-- Python whitespace for `str.split(None)` / `str.rstrip` (ASCII subset). -/
def isPyWs (c : Char) : Bool := c = ' ' || c = '\t' || c = '\n' || c = '\r'

/-- Python `str.rstrip()` on a list of characters. -/
def pyRstripCs (cs : List Char) : List Char := (cs.reverse.dropWhile isPyWs).reverse

/-- Python `str.rstrip()`. -/
def pyRstrip (s : String) : String := String.mk (pyRstripCs s.data)

/-- Python `str.lower()` (ASCII). -/
def pyLower (s : String) : String := String.mk (s.data.map Char.toLower)

/-- Python `s.isdigit()` for a whole string: nonempty and all digits. -/
def pyIsdigit (cs : List Char) : Bool := !cs.isEmpty && cs.all pyIsDigitChar

/-- Python `str.endswith` on character lists. -/
def endsWithCs (cs sfx : List Char) : Bool :=
  decide (sfx.length ≤ cs.length) && cs.drop (cs.length - sfx.length) == sfx

/-- Python `str.endswith`. -/
def pyEndsWith (s sfx : String) : Bool := endsWithCs s.data sfx.data

/-- Python `str.startswith`. -/
def pyStartsWith (s pre : String) : Bool := s.data.take pre.data.length == pre.data

/-- Helper for `str.split(None, maxsplit)`: one character at a time, with
the reversed current word as accumulator.  A word boundary consumes one
split; a word starting when no splits remain takes the whole remainder
verbatim. -/
def splitWsGo : List Char → Nat → List Char → List String
  | [], _, [] => []
  | [], _, a :: as => [String.mk (a :: as).reverse]
  | c :: rest, n, acc =>
    if isPyWs c then
      match acc with
      | [] => splitWsGo rest n []
      | a :: as => String.mk (a :: as).reverse :: splitWsGo rest (n - 1) []
    else
      match acc with
      | [] => if n = 0 then [String.mk (c :: rest)] else splitWsGo rest n [c]
      | a :: as => splitWsGo rest n (c :: a :: as)

/-- Python `str.split(None, maxsplit)` on an already-rstripped string:
split on runs of whitespace, at most `maxsplit` splits, the remainder
after the last split kept verbatim. -/
def pySplitWs (s : String) (maxsplit : Nat) : List String := splitWsGo s.data maxsplit []

/-- Helper for `str.split(sep)`. -/
def splitCharGo (sep : Char) : List Char → List Char → List String
  | [], acc => [String.mk acc.reverse]
  | c :: rest, acc =>
    if c = sep then String.mk acc.reverse :: splitCharGo sep rest []
    else splitCharGo sep rest (c :: acc)

/-- Python `str.split(sep)` for a one-character separator (keeps empties). -/
def pySplitChar (s : String) (sep : Char) : List String :=
  splitCharGo sep s.data []

/-- Python `str.rfind(c) ≥ 0`, i.e. the character occurs in the string. -/
def pyContainsChar (s : String) (c : Char) : Bool := s.data.contains c

/-- Python `str.rpartition(c)` restricted to the case where `c` occurs:
returns the pair (text before the last `c`, text after it). -/
def pyRpartition (s : String) (c : Char) : String × String :=
  let rev := s.data.reverse
  let after := rev.takeWhile (fun x => x ≠ c)
  let before := (rev.dropWhile (fun x => x ≠ c)).drop 1
  (String.mk before.reverse, String.mk after.reverse)

/-- Python `str.partition(c)`: (before, after, found). -/
def pyPartition (s : String) (c : Char) : String × String × Bool :=
  let before := s.data.takeWhile (fun x => x ≠ c)
  let rest := s.data.dropWhile (fun x => x ≠ c)
  match rest with
  | [] => (String.mk before, "", false)
  | _ :: tl => (String.mk before, String.mk tl, true)

/-- Numeric value of an ASCII digit character. -/
def digitVal (c : Char) : Nat := c.toNat - 48

/-- ASCII digit character of a value `< 10`. -/
def digitChar (n : Nat) : Char := Char.ofNat (48 + n)

/-- Python `int(s)` on a string already known to be all digits. -/
def digitsToNat (cs : List Char) : Nat := cs.foldl (fun a c => a * 10 + digitVal c) 0

/-- Python `str(n).zfill(2)` for `n ≤ 99`, as characters. -/
def pad2 (n : Nat) : List Char := [digitChar (n / 10 % 10), digitChar (n % 10)]

/-- Four-digit zero-padded decimal rendering of `n ≤ 9999` (the `%Y` field
of `strftime` for the years representable by `datetime.date`). -/
def pad4 (n : Nat) : List Char :=
  [digitChar (n / 1000 % 10), digitChar (n / 100 % 10), digitChar (n / 10 % 10),
   digitChar (n % 10)]

/-! ### Python exceptions -/

/-- Decidable equality for `Except` results (kernel-reducible). -/
instance {ε α : Type} [DecidableEq ε] [DecidableEq α] : DecidableEq (Except ε α)
  | Except.ok a, Except.ok b => decidable_of_iff (a = b) (by simp)
  | Except.ok _, Except.error _ => isFalse (by simp)
  | Except.error _, Except.ok _ => isFalse (by simp)
  | Except.error a, Except.error b => decidable_of_iff (a = b) (by simp)

/-- Stable insertion into a sorted list: a new element goes after every
element it compares `le`-below-or-equal to (Python `list.sort` order). -/
def insSorted (le : α → α → Bool) (x : α) : List α → List α
  | [] => [x]
  | y :: ys => if le y x then y :: insSorted le x ys else x :: y :: ys

/-- Stable sort by a boolean total preorder, as Python `list.sort`. -/
def stableSort (le : α → α → Bool) (l : List α) : List α :=
  l.foldl (fun acc x => insSorted le x acc) []

/-- The Python exception classes the modelled code can raise. -/
inductive PyErr where
  | typeError
  | valueError
  | nameError
  | attributeError
  | indexError
  | overflowError
  | fileNotFoundError
  | recursionError
  | systemExit
  deriving DecidableEq, Repr

/-! ### Dates (`datetime.date`)

`datetime.date` supports years 1..9999; adding `timedelta(days=1)` past
9999-12-31 raises `OverflowError`.  `strftime("%Y%m%d")` is modelled as
zero-padded 4+2+2 digits (the documented rendering for 4-digit years). -/

structure DateM where
  y : Nat
  m : Nat
  d : Nat
  deriving DecidableEq, Repr

/-- Gregorian leap year, as in `datetime`. -/
def isLeap (y : Nat) : Bool := y % 4 = 0 && (y % 100 ≠ 0 || y % 400 = 0)

/-- Days in a month, as in `datetime`. -/
def daysInMonth (y m : Nat) : Nat :=
  if m = 2 then (if isLeap y then 29 else 28)
  else if m = 4 || m = 6 || m = 9 || m = 11 then 30
  else 31

/-- The dates representable by `datetime.date`. -/
def validDate (dt : DateM) : Bool :=
  1 ≤ dt.y && dt.y ≤ 9999 && 1 ≤ dt.m && dt.m ≤ 12 && 1 ≤ dt.d &&
    dt.d ≤ daysInMonth dt.y dt.m

/-- `date + timedelta(days=1)`; `none` models the `OverflowError` raised
past `date.max = 9999-12-31`. -/
def nextDay (dt : DateM) : Option DateM :=
  if dt.d < daysInMonth dt.y dt.m then some ⟨dt.y, dt.m, dt.d + 1⟩
  else if dt.m < 12 then some ⟨dt.y, dt.m + 1, 1⟩
  else if dt.y < 9999 then some ⟨dt.y + 1, 1, 1⟩
  else none

/-- Comparison `a < b` on dates, as in `datetime`. -/
def dateLt (a b : DateM) : Bool :=
  a.y < b.y || (a.y = b.y && (a.m < b.m || (a.m = b.m && a.d < b.d)))

/-- `strftime("%Y%m%d")`. -/
def fmtDate (dt : DateM) : List Char := pad4 dt.y ++ pad2 dt.m ++ pad2 dt.d

/-- `datetime.strptime(s, "%Y%m%d").date()` on an 8-character field:
digits split 4+2+2, full calendar validation. -/
def parseDate8 (cs : List Char) : Option DateM :=
  match cs with
  | [a, b, c, d, e, f, g, h] =>
    if ([a, b, c, d, e, f, g, h].all pyIsDigitChar) then
      let dt : DateM := ⟨digitsToNat [a, b, c, d], digitsToNat [e, f], digitsToNat [g, h]⟩
      if validDate dt then some dt else none
    else none
  | _ => none

/-! ### SOA serial advance (NS_Manager.increaseSoaSerial, dnsmgr_isc_bind.py)

The advance computation on the parsed date and sequence counter:
```
now = datetime.datetime.now().date()
if now > dt: dt = now; seq = 0
else:
    if seq > 98: dt = dt + datetime.timedelta(days=1); seq = 0
    else: seq += 1
serial = dt.strftime("%Y%m%d") + str(seq).zfill(2)
```
`none` models the `OverflowError` of the `timedelta` addition. -/
def nextSerial (today dt : DateM) (seq : Nat) : Option (List Char) :=
  if dateLt dt today then some (fmtDate today ++ pad2 0)
  else if seq > 98 then (nextDay dt).map (fun d2 => fmtDate d2 ++ pad2 0)
  else some (fmtDate dt ++ pad2 (seq + 1))

/-- The total calendar successor (the "date plus one day" of the spec,
which does not contemplate a representable-range cap). -/
def calSucc (dt : DateM) : DateM :=
  if dt.d < daysInMonth dt.y dt.m then ⟨dt.y, dt.m, dt.d + 1⟩
  else if dt.m < 12 then ⟨dt.y, dt.m + 1, 1⟩
  else ⟨dt.y + 1, 1, 1⟩

/-- The advance rule exactly as the spec words it: today after the date →
today with seq 00; else seq ≥ 99 → date plus one day with seq 00; else
the date unchanged with seq + 1, always rendered as eight date digits
plus a two-digit seq. -/
def specNextSerial (today dt : DateM) (seq : Nat) : List Char :=
  if dateLt dt today then fmtDate today ++ pad2 0
  else if 99 ≤ seq then fmtDate (calSucc dt) ++ pad2 0
  else fmtDate dt ++ pad2 (seq + 1)

/-! ### Locating the serial field (C8)

```
p = len(serial) - len("; Serial")
while not serial[p].isdigit():
    p -= 1
    if p < 0: raise ...
p -= 9
if p < 0: raise ...
if not serial[p:p+10].isdigit(): raise ...
```
-/

/-- Character at index `p` is a digit (out-of-range counts as not a digit;
the scan is only invoked with the start index in range). -/
def isDigitAt (cs : List Char) (p : Nat) : Bool :=
  match cs.get? p with
  | some c => pyIsDigitChar c
  | none => false

/-- The backwards scan for the last digit at index `≤ p`:
`while not serial[p].isdigit(): p -= 1 (fail below 0)`. -/
def scanBack (cs : List Char) : Nat → Option Nat
  | 0 => if isDigitAt cs 0 then some 0 else none
  | Nat.succ p => if isDigitAt cs (p + 1) then some (p + 1) else scanBack cs p

/-- Locate the start of the ten-digit serial field in an rstripped line that
ends with the (case-folded) tag `"; serial"`; errors mirror the three
`NS_Exception` raises of the source. -/
def scanSerialPos (serial : List Char) : Except String Nat :=
  match scanBack serial (serial.length - 8) with
  | none => Except.error "cant find last digit in serial number"
  | some q =>
    if q < 9 then Except.error "cant find all digits in serial number"
    else if pyIsdigit ((serial.drop (q - 9)).take 10) then Except.ok (q - 9)
    else Except.error "cant find serial number"

/-- The line-scanning loop: the last line whose rstripped, lower-cased form
ends with `"; serial"`, together with its index; `none` models the
`serial is None` error. -/
def findSerialLine (lines : List String) : Option (Nat × String) :=
  (lines.foldl
    (fun (acc : Nat × Option (Nat × String)) l =>
      let r := pyRstrip l
      (acc.1 + 1,
        if pyEndsWith (pyLower r) "; serial" then some (acc.1, r) else acc.2))
    (0, none)).2

/-! ### Filesystem and event trace

A file is a list of lines (no trailing newline stored); its byte size is
the sum of line lengths plus one newline per line.  The filesystem is an
association list path → content where the most recent write shadows older
entries.  Observable commands are recorded as events. -/

/-- Read a file: first (most recent) entry for the path. -/
def fsGet (fs : List (String × List String)) (p : String) : Option (List String) :=
  (fs.find? (fun e => e.1 == p)).map Prod.snd

/-- Write a file (shadowing any previous content). -/
def fsSet (fs : List (String × List String)) (p : String) (v : List String) :
    List (String × List String) := (p, v) :: fs

/-- Remove a file (`mv` removes its source). -/
def fsErase (fs : List (String × List String)) (p : String) :
    List (String × List String) := fs.filter (fun e => !(e.1 == p))

/-- Byte size of a file, as `stat -c %s` reports it. -/
def lineBytes (lines : List String) : Nat := (lines.map (fun l => l.length + 1)).sum

/-- `f.seek(p); f.write(repl)` inside one line: overwrite `repl.length`
characters starting at index `p`. -/
def replaceAt (cs : List Char) (p : Nat) (repl : List Char) : List Char :=
  cs.take p ++ repl ++ cs.drop (p + repl.length)

/-- Externally observable commands issued by the managers. -/
inductive Action where
  | moved (dst : String)
  | installed (path : String) (newSerial : List Char)
  | reloaded (zone : String)
  | restartV4
  | restartV6
  deriving DecidableEq, Repr

/-- Mutable state of a run: the filesystem plus the event trace. -/
structure MSt where
  fs : List (String × List String)
  tr : List Action
  deriving DecidableEq, Repr

/-! ### NS_Manager.increaseSoaSerial (dnsmgr_isc_bind.py, local mode)

The remote (`self.remote`) branches are skipped, matching a local manager.
The `cp` of the zone file to the temp copy runs outside the process, so its
outcome is supplied by the oracle `copyF` (the honest environment is `id`);
the subsequent sha256 comparison is modelled as content equality. -/
/-- The read-only middle of increaseSoaSerial: find the last
`"; serial"` line of the temp copy, locate the ten-digit field, validate
the date, compute the new serial; returns (line index, field offset, new
serial characters). -/
def locateAndAdvance (today : DateM) (content : List String) :
    Except String (Nat × Nat × List Char) :=
  match findSerialLine content with
  | none => Except.error "Cant find serial number in file"
  | some (idx, serialLine) =>
    match scanSerialPos serialLine.data with
    | Except.error e => Except.error e
    | Except.ok p =>
      match parseDate8 ((serialLine.data.drop p).take 8) with
      | none => Except.error "Serial number does not start with a valid date"
      | some dt =>
        match nextSerial today dt (digitsToNat ((serialLine.data.drop (p + 8)).take 2)) with
        | none => Except.error "OverflowError"
        | some ns => Except.ok (idx, p, ns)

/-- Patch the ten serial characters into line `idx` of the copy. -/
def patchSerial (content : List String) (idx p : Nat) (ns : List Char) : List String :=
  content.set idx (String.mk (replaceAt ((content.get? idx).getD "").data p ns))

def incSoaSerial (today : DateM) (ziname zifile zityp tmpdir : String)
    (copyF : List String → List String) (st : MSt) : MSt × Option String :=
  if zityp ≠ "master" then
    (st, some "increaseSoaSerial only makes sense for zone type master")
  else
    let tmpfile := tmpdir ++ "/" ++ ziname
    match fsGet st.fs zifile with
    | none => (st, some "FileNotFoundError")
    | some src =>
      let copied := copyF src
      let st1 : MSt := { st with fs := fsSet st.fs tmpfile copied }
      if copied ≠ src then (st1, some "Error, copied file differs in checksum")
      else
        match locateAndAdvance today copied with
        | Except.error e => (st1, some e)
        | Except.ok (idx, p, ns) =>
          let c2 := patchSerial copied idx p ns
          let st2 : MSt := { st1 with fs := fsSet st1.fs tmpfile c2 }
          match fsGet st2.fs tmpfile, fsGet st2.fs zifile with
          | some ctmp, some czone =>
            if lineBytes ctmp ≠ lineBytes czone then
              (st2, some "Error: Old file and new file has different sizes")
            else
              let st3 : MSt := { st2 with
                fs := fsSet st2.fs zifile ctmp,
                tr := st2.tr ++ [Action.installed zifile ns] }
              ({ st3 with tr := st3.tr ++ [Action.reloaded ziname] }, none)
          | _, _ => (st2, some "stat failed")

/-! ### Records, zones and the renderer -/

/-- A value as the loaders store it: plain string, `ipaddress.IPv4Address`
(kept as its four octets) or `ipaddress.IPv6Address` (kept as its 32
exploded nibble values). -/
inductive PyVal where
  | s (v : String)
  | v4 (o : List Nat)
  | v6 (o : List Nat)
  deriving DecidableEq, Repr

/-- Lower-case hex character of a nibble value. -/
def hexChar (n : Nat) : Char := if n < 10 then digitChar n else Char.ofNat (87 + n)

/-- Python `str()` of a stored value.  `IPv4Address` renders as the dotted
quad.  (`IPv6Address` renders compressed in Python; the claims under proof
never depend on the rendering of an AAAA value, and the exploded grouped
form is used here.) -/
def pyStr : PyVal → String
  | PyVal.s v => v
  | PyVal.v4 o => String.intercalate "." (o.map (fun n => toString n))
  | PyVal.v6 o =>
    String.intercalate ":"
      ((List.range 8).map (fun g => String.mk ((o.drop (4 * g)).take 4 |>.map hexChar)))

/-- One resource record (class RR).  `domain` is `none` when the loader
never saw a `$DOMAIN` directive (Python `None`). -/
structure RRm where
  domain : Option String
  ttl : String
  name : PyVal
  typ : String
  value : PyVal
  deriving DecidableEq, Repr

/-- Python string interpolation of a possibly-`None` domain. -/
def domStr (d : Option String) : String := d.getD "None"

/-- One in-memory zone (class Zone): its records dict keyed by
`str(rr.name) + rr.domain`, in insertion order. -/
structure ZoneM where
  zone : String
  zonefile : String
  typ : String
  pfx : Option (List Nat × Nat)
  records : List (String × List RRm)
  deriving DecidableEq, Repr

/-- Zone constructor with the `zonefile=None` default. -/
def mkZone (zone : String) (typ : String) (pfx : Option (List Nat × Nat) := none) : ZoneM :=
  ⟨zone, zone, typ, pfx, []⟩

/-- A reverse zone carrying its derived network prefix. -/
def mkRevZone (zonename typ : String) (net : List Nat × Nat) : ZoneM :=
  { mkZone zonename typ with pfx := some net }

/-- Zone.add_rr: append to the key's list, or start a new key at the end. -/
def zoneAddRR (z : ZoneM) (rr : RRm) : ZoneM :=
  let key := pyStr rr.name ++ domStr rr.domain
  if (z.records.lookup key).isSome then
    { z with records := z.records.map (fun e => if e.1 = key then (e.1, e.2 ++ [rr]) else e) }
  else
    { z with records := z.records ++ [(key, [rr])] }

/-- Python code-point comparison of strings (for sorted dict keys). -/
def csLe : List Char → List Char → Bool
  | [], _ => true
  | _ :: _, [] => false
  | a :: as, b :: bs =>
    if a.toNat < b.toNat then true
    else if b.toNat < a.toNat then false
    else csLe as bs

/-- Zone.__iter__: the record lists in ascending key order. -/
def zoneSorted (z : ZoneM) : List (String × List RRm) :=
  stableSort (fun a b => csLe a.1.data b.1.data) z.records

/-- `"%-ns"`: left-justify in a field of width `n`. -/
def padRightStr (s : String) (n : Nat) : String :=
  s ++ String.mk (List.replicate (n - s.length) ' ')

/-- `"%ns"`: right-justify in a field of width `n`. -/
def padLeftStr (s : String) (n : Nat) : String :=
  String.mk (List.replicate (n - s.length) ' ') ++ s

/-- Drop the last `n` characters (Python `s[:-n]`). -/
def strDropRight (s : String) (n : Nat) : String :=
  String.mk (s.data.take (s.data.length - n))

/-- ipv4_addr_to_reverse on the stored octets: reverse the dotted quad. -/
def ipv4AddrToReverse (o : List Nat) : String :=
  String.intercalate "." ((o.map (fun n => toString n)).reverse)

/-- ipv6_addr_to_reverse on the stored nibbles: dot-join the reversed
exploded digits. -/
def ipv6AddrToReverse (o : List Nat) : String :=
  String.intercalate "." ((o.map (fun n => String.mk [hexChar n])).reverse)

/-- The include-file content NS_Manager.saveZone writes for a zone: fixed
preamble, `$ORIGIN`, then the per-type record lines. -/
def renderZone (includedir zonefile : String) (z : ZoneM) : List String :=
  let header : List String :=
    [";", "; File generated by DnsNgr", "; Do not edit, changes will be overwritten", ";",
     "; Zonefile : " ++ includedir ++ "/" ++ zonefile,
     "; Records  : " ++ toString z.records.length,
     ";", "",
     "$ORIGIN " ++ z.zone ++ ".", ""]
  let body : List String :=
    if z.typ = "forward" then
      (zoneSorted z).flatMap (fun e => e.2.map (fun rr =>
        padRightStr (pyStr rr.name) 30 ++ "  " ++ padLeftStr rr.ttl 5 ++ "  " ++
          padRightStr rr.typ 8 ++ "    " ++ pyStr rr.value))
    else if z.typ = "reverse4" then
      (zoneSorted z).flatMap (fun e => e.2.map (fun rr =>
        let name := strDropRight (ipv4AddrToReverse (match rr.name with
          | PyVal.v4 o => o
          | _ => []) ++ ".in-addr.arpa") (z.zone.length + 1)
        padRightStr name 30 ++ "  " ++ padLeftStr rr.ttl 5 ++ "  " ++ rr.typ ++ "    " ++
          pyStr rr.value ++ "." ++ domStr rr.domain ++ "."))
    else if z.typ = "reverse6" then
      (zoneSorted z).flatMap (fun e => e.2.map (fun rr =>
        let name := strDropRight (ipv6AddrToReverse (match rr.name with
          | PyVal.v6 o => o
          | _ => []) ++ ".ip6.arpa") (z.zone.length + 1)
        padRightStr name 50 ++ "  " ++ padLeftStr rr.ttl 5 ++ "  " ++ rr.typ ++ "    " ++
          pyStr rr.value ++ "." ++ domStr rr.domain ++ "."))
    else []
  header ++ body

/-- Substitute every `{zone}` placeholder in a character list. -/
def substZone (zonename : String) : List Char → List Char
  | '\x7b' :: 'z' :: 'o' :: 'n' :: 'e' :: '\x7d' :: rest => zonename.data ++ substZone zonename rest
  | c :: rest => c :: substZone zonename rest
  | [] => []

/-- `self.includefile.format(zone=...)`. -/
def formatZoneTemplate (tpl zonename : String) : String :=
  String.mk (substZone zonename tpl.data)

/-! ### NS_Manager.saveZone (dnsmgr_isc_bind.py, local mode)

`zoneinfo = self.zones[zone.zonefile]` is passed in as the three fields
`ziname / zifile / zityp`.  Render to the temp directory; if the
authoritative include-file is missing or differs (sha256, modelled as
content equality), move the temp file into place and run the serial
editor (which ends by invoking the per-zone reload command). -/
def saveZone (today : DateM) (z : ZoneM) (ziname zifile zityp : String)
    (includedir includefile tmpdir : String)
    (copyF : List String → List String) (st : MSt) : MSt × Option String :=
  let zonefile := formatZoneTemplate includefile z.zonefile
  let filename := tmpdir ++ "/" ++ zonefile
  let rendered := renderZone includedir zonefile z
  let st1 : MSt := { st with fs := fsSet st.fs filename rendered }
  let dstPath := includedir ++ "/" ++ zonefile
  let doReplace :=
    if (fsGet st1.fs dstPath).isSome then
      decide (fsGet st1.fs filename ≠ fsGet st1.fs dstPath)
    else true
  if doReplace then
    let st2 : MSt := { st1 with
      fs := fsSet (fsErase st1.fs filename) dstPath rendered,
      tr := st1.tr ++ [Action.moved dstPath] }
    incSoaSerial today ziname zifile zityp tmpdir copyF st2
  else (st1, none)

/-! ### Mtrie4 / Mtrie6 (dnsmgr_util.py)

A trie node holds a child dict and a leaf dict, both keyed by stride
index.  `Mtrie4` strides one octet, `Mtrie6` one exploded nibble.
Addresses and prefixes enter as their numeric stride lists; for `Mtrie6`
the terminal stride of `add_prefix` re-reads the exploded character with
plain `int(...)` (base 10), which succeeds exactly for nibble values
`≤ 9` and raises `ValueError` on the hex letters a-f. -/

inductive MNode (α : Type) where
  | node (child : List (Nat × MNode α)) (obj : List (Nat × α))

/-- The empty node. -/
def mnodeEmpty : MNode α := MNode.node [] []

/-- Child dict lookup. -/
def mnodeChild : MNode α → Nat → Option (MNode α)
  | MNode.node c _, i => c.lookup i

/-- Leaf dict lookup. -/
def mnodeObj : MNode α → Nat → Option α
  | MNode.node _ o, i => o.lookup i

/-- Dict assignment `m[k] = v` (updates in place or appends). -/
def setAssoc (l : List (Nat × β)) (k : Nat) (v : β) : List (Nat × β) :=
  if (l.lookup k).isSome then l.map (fun e => if e.1 = k then (k, v) else e)
  else l ++ [(k, v)]

/-- Store a (possibly new) child node under index `i`. -/
def mnodeSetChild : MNode α → Nat → MNode α → MNode α
  | MNode.node c o, i, v => MNode.node (setAssoc c i v) o

/-- `for ix in range(b, e + 1): if ix not in p.obj: p.obj[ix] = obj`. -/
def mnodeFillObjs : MNode α → Nat → Nat → α → MNode α
  | MNode.node c o, b, e, v =>
    MNode.node c ((List.range' b (e + 1 - b)).foldl
      (fun m ix => if (m.lookup ix).isSome then m else m ++ [(ix, v)]) o)

/-- Mtrie4.add_prefix on the octet list of the network address:
descend one octet per level while more than 8 bits remain, then fill the
leaf range `[i, i + (128 >> l)]` at the terminal octet. -/
def add_prefix4 (n : MNode α) : List Nat → Nat → α → Except PyErr (MNode α)
  | [], _, _ => Except.error PyErr.indexError
  | i :: rest, l, obj =>
    if l > 8 then
      match add_prefix4 ((mnodeChild n i).getD mnodeEmpty) rest (l - 8) obj with
      | Except.error e => Except.error e
      | Except.ok c2 => Except.ok (mnodeSetChild n i c2)
    else
      Except.ok (mnodeFillObjs n i (i + (128 >>> l)) obj)

/-- Mtrie4.lookup on the octet list of the queried address: remember the
deepest leaf seen, descend while a child exists. -/
def lookup4 (n : MNode α) : List Nat → Option α → Except PyErr (Option α)
  | [], _ => Except.error PyErr.indexError
  | i :: rest, found =>
    let f2 := match mnodeObj n i with
      | some o => some o
      | none => found
    match mnodeChild n i with
    | none => Except.ok f2
    | some c => lookup4 c rest f2

/-- The descent-and-fill loop of Mtrie6.add_prefix on the nibble values of
the exploded network address.  The terminal nibble is re-parsed with
base-10 `int(...)`: values 10..15 (hex a-f) raise `ValueError`. -/
def add_prefix6Go (n : MNode α) : List Nat → Nat → α → Except PyErr (MNode α)
  | [], _, _ => Except.error PyErr.indexError
  | i :: rest, l, obj =>
    if l > 4 then
      match add_prefix6Go ((mnodeChild n i).getD mnodeEmpty) rest (l - 4) obj with
      | Except.error e => Except.error e
      | Except.ok c2 => Except.ok (mnodeSetChild n i c2)
    else
      if i ≥ 10 then Except.error PyErr.valueError
      else Except.ok (mnodeFillObjs n i (i + (128 >>> l)) obj)

/-- Mtrie6.add_prefix: reject non-nibble prefix lengths, then run the
descent-and-fill loop. -/
def add_prefix6 (n : MNode α) (ip : List Nat) (l : Nat) (obj : α) : Except PyErr (MNode α) :=
  if l % 4 ≠ 0 then Except.error PyErr.valueError
  else add_prefix6Go n ip l obj

/-- Mtrie6.lookup on the nibble values of the exploded queried address. -/
def lookup6 (n : MNode α) : List Nat → Option α → Except PyErr (Option α)
  | [], _ => Except.error PyErr.indexError
  | i :: rest, found =>
    let f2 := match mnodeObj n i with
      | some o => some o
      | none => found
    match mnodeChild n i with
    | none => Except.ok f2
    | some c => lookup6 c rest f2

/-! ### Address literals (`ipaddress`) -/

/-- Hex digit value (both cases), as `int(c, 16)`. -/
def pyHexVal (c : Char) : Option Nat :=
  if c.isDigit then some (digitVal c)
  else if 'a' ≤ c ∧ c ≤ 'f' then some (c.toNat - 87)
  else if 'A' ≤ c ∧ c ≤ 'F' then some (c.toNat - 55)
  else none

/-- Traverse a list with a fallible parser (`Option`-monadic map, written
structurally). -/
def mapOption (f : α → Option β) : List α → Option (List β)
  | [] => some []
  | a :: rest =>
    match f a, mapOption f rest with
    | some b, some bs => some (b :: bs)
    | _, _ => none

/-- One dotted-quad octet as `ipaddress` accepts it: 1-3 digits, no
leading zero, value ≤ 255. -/
def pyParseOctet (s : String) : Option Nat :=
  let cs := s.data
  if cs.isEmpty || decide (cs.length > 3) || !(cs.all pyIsDigitChar) then none
  else if decide (cs.length > 1) && cs.head? == some '0' then none
  else
    let v := digitsToNat cs
    if v ≤ 255 then some v else none

/-- `ipaddress.IPv4Address(s)`: four valid octets. -/
def pyParseIPv4 (s : String) : Option (List Nat) :=
  let parts := pySplitChar s '.'
  if parts.length ≠ 4 then none
  else
    match mapOption pyParseOctet parts with
    | none => none
    | some os => some os

/-- One hextet group: 1-4 hex digits, yielding its four nibble values. -/
def pyParseGroup (s : String) : Option (List Nat) :=
  let cs := s.data
  if cs.isEmpty || decide (cs.length > 4) then none
  else
    match mapOption pyHexVal cs with
    | none => none
    | some vs =>
      let v := vs.foldl (fun a d => a * 16 + d) 0
      some [v / 4096 % 16, v / 256 % 16, v / 16 % 16, v % 16]

/-- Split a character list at its first `::` occurrence. -/
def splitTwoColons : List Char → Option (List Char × List Char)
  | [] => none
  | [_] => none
  | a :: b :: rest =>
    if a = ':' ∧ b = ':' then some ([], rest)
    else (splitTwoColons (b :: rest)).map (fun pr => (a :: pr.1, pr.2))

/-- `ipaddress.IPv6Address(s)` for the textual forms used here (hextet
groups with at most one `::` compression; the embedded-IPv4 form is not
modelled): the 32 exploded nibble values. -/
def pyParseIPv6 (s : String) : Option (List Nat) :=
  match splitTwoColons s.data with
  | none =>
    let gs := pySplitChar s ':'
    if gs.length ≠ 8 then none
    else (mapOption pyParseGroup gs).map List.flatten
  | some (l, r) =>
    if (splitTwoColons r).isSome then none
    else
      let lgs := if l = [] then [] else pySplitChar (String.mk l) ':'
      let rgs := if r = [] then [] else pySplitChar (String.mk r) ':'
      if lgs.length + rgs.length ≥ 8 then none
      else
        match mapOption pyParseGroup lgs, mapOption pyParseGroup rgs with
        | some lv, some rv =>
          some (lv.flatten ++ List.replicate (4 * (8 - lgs.length - rgs.length)) 0 ++ rv.flatten)
        | _, _ => none

/-- `ipaddress.IPv4Network(parts joined with dots ++ "/" ++ plen, strict)`.
The source builds the dotted string from the label list and `ipaddress`
re-splits it; since valid octet labels contain no dot, the join/split
round trip is the identity and the network is modelled directly on the
parts.  Strict mode requires the host bits to be zero. -/
def pyIPv4NetworkOfParts (parts : List String) (plen : Nat) : Option (List Nat × Nat) :=
  match mapOption pyParseOctet parts with
  | none => none
  | some os =>
    if parts.length = 4 ∧ plen ≤ 32 ∧
        (os.foldl (fun a o => a * 256 + o) 0) % 2 ^ (32 - plen) = 0 then
      some (os, plen)
    else none

/-- A zone-name label that is one hex character, as its nibble value. -/
def parseNibbleLabel (p : String) : Option Nat :=
  match p.data with
  | [c] => pyHexVal c
  | _ => none

/-- `ipaddress.IPv6Network(...)` for the zone-derived form: 32 single
hex-character labels grouped four at a time; nibble-aligned strict check. -/
def pyIPv6NetworkOfParts (parts : List String) (plen : Nat) : Option (List Nat × Nat) :=
  match mapOption parseNibbleLabel parts with
  | none => none
  | some ns =>
    if parts.length = 32 ∧ plen ≤ 128 ∧ plen % 4 = 0 ∧
        (ns.drop (plen / 4)).all (fun n => n = 0) then
      some (ns, plen)
    else none

/-! ### Zones (dnsmgr.py / dnsmgr_util.py class Zones) -/

/-- The zone collection: forward zones (sorted by ascending name length),
the reverse zone lists, and the two tries built by init_search.  Trie
leaves are indices into the sorted reverse lists (the source stores
references to the same zone objects). -/
structure ZonesM where
  zones : List ZoneM
  reverse4 : List ZoneM
  reverse6 : List ZoneM
  lpm4 : Option (MNode Nat)
  lpm6 : Option (MNode Nat)

/-- The empty collection. -/
def zonesEmpty : ZonesM := ⟨[], [], [], none, none⟩

/-- Zones.add_zone: append a forward zone, keep sorted by name length. -/
def zonesAddZone (zs : ZonesM) (zonename : String) : ZonesM :=
  let tmp := stableSort (fun a b => decide (a.zone.length ≤ b.zone.length))
    (zs.zones ++ [mkZone zonename "forward"])
  { zs with zones := tmp }

/-- Zones.add_zone_reverse4: derive the LPM prefix from the reverse zone
name (strip `.in-addr.arpa`, split into labels, at most 3 of them,
`prefixlen = 8 * labels`, reverse, right-pad with `"0"` to 4 octets, parse
as a strict IPv4 network). -/
def zonesAddZoneReverse4 (zs : ZonesM) (zonename : String) : Except PyErr ZonesM :=
  if !pyEndsWith zonename ".in-addr.arpa" then Except.error PyErr.valueError
  else
    let tmp := pySplitChar (strDropRight zonename 13) '.'
    if tmp.length > 3 then Except.error PyErr.valueError
    else
      let plen := 8 * tmp.length
      let parts := tmp.reverse ++ List.replicate (4 - tmp.length) "0"
      match pyIPv4NetworkOfParts parts plen with
      | none => Except.error PyErr.valueError
      | some net =>
        Except.ok { zs with reverse4 := zs.reverse4 ++
          [{ mkZone zonename "reverse4" with pfx := some net }] }

/-- Zones.add_zone_reverse6: strip `.ip6.arpa`, at most 31 nibble labels,
`prefixlen = 4 * nibbles`, reverse, right-pad with `"0"` to 32 nibbles,
group and parse as a strict IPv6 network. -/
def zonesAddZoneReverse6 (zs : ZonesM) (zonename : String) : Except PyErr ZonesM :=
  if !pyEndsWith zonename ".ip6.arpa" then Except.error PyErr.valueError
  else
    let tmp := pySplitChar (strDropRight zonename 9) '.'
    if tmp.length > 31 then Except.error PyErr.valueError
    else
      let plen := 4 * tmp.length
      let parts := tmp.reverse ++ List.replicate (32 - tmp.length) "0"
      match pyIPv6NetworkOfParts parts plen with
      | none => Except.error PyErr.valueError
      | some net =>
        Except.ok { zs with reverse6 := zs.reverse6 ++
          [{ mkZone zonename "reverse6" with pfx := some net }] }

/-- The prefix length of a reverse zone (always present there). -/
def zonePlen (z : ZoneM) : Nat :=
  match z.pfx with
  | some (_, l) => l
  | none => 0

/-- The network stride list of a reverse zone. -/
def zoneNet (z : ZoneM) : List Nat :=
  match z.pfx with
  | some (o, _) => o
  | none => []

/-- Insert the sorted reverse zones into a trie, leaves being their list
indices. -/
def buildTrie4 : List ZoneM → Nat → MNode Nat → Except PyErr (MNode Nat)
  | [], _, t => Except.ok t
  | z :: rest, i, t =>
    match add_prefix4 t (zoneNet z) (zonePlen z) i with
    | Except.error e => Except.error e
    | Except.ok t2 => buildTrie4 rest (i + 1) t2

/-- Insert the sorted reverse6 zones into a trie. -/
def buildTrie6 : List ZoneM → Nat → MNode Nat → Except PyErr (MNode Nat)
  | [], _, t => Except.ok t
  | z :: rest, i, t =>
    match add_prefix6 t (zoneNet z) (zonePlen z) i with
    | Except.error e => Except.error e
    | Except.ok t2 => buildTrie6 rest (i + 1) t2

/-- Zones.init_search: sort both reverse lists by descending prefix
length (stable, as `list.sort`), then add every prefix to the trie in
that order. -/
def zonesInitSearch (zs : ZonesM) : Except PyErr ZonesM :=
  let r4 := stableSort (fun a b => decide (zonePlen b ≤ zonePlen a)) zs.reverse4
  let r6 := stableSort (fun a b => decide (zonePlen b ≤ zonePlen a)) zs.reverse6
  match buildTrie4 r4 0 mnodeEmpty with
  | Except.error e => Except.error e
  | Except.ok t4 =>
    match buildTrie6 r6 0 mnodeEmpty with
    | Except.error e => Except.error e
    | Except.ok t6 =>
      Except.ok { zs with reverse4 := r4, reverse6 := r6, lpm4 := some t4, lpm6 := some t6 }

/-- Zones.add_rr: linear search of the forward zones for an exact domain
match; no match is logged and dropped. -/
def forwardAddRR : List ZoneM → RRm → List ZoneM
  | [], _ => []
  | z :: rest, rr =>
    if rr.domain = some z.zone then zoneAddRR z rr :: rest
    else z :: forwardAddRR rest rr

/-- Zones.add_rr on the collection. -/
def zonesAddRR (zs : ZonesM) (rr : RRm) : ZonesM :=
  { zs with zones := forwardAddRR zs.zones rr }

/-- Mutate the zone at a list index (the trie leaf aliases the zone
object in the source). -/
def updateZoneAt (l : List ZoneM) (i : Nat) (rr : RRm) : List ZoneM :=
  match l.get? i with
  | none => l
  | some z => l.set i (zoneAddRR z rr)

/-- Zones.add_rr_reverse4: LPM lookup of `str(rr.name)` (a dotted quad);
a hit routes the PTR into that zone, a miss is logged and dropped. -/
def zonesAddRRReverse4 (zs : ZonesM) (rr : RRm) : Except PyErr ZonesM :=
  match zs.lpm4 with
  | none => Except.error PyErr.attributeError
  | some t =>
    match rr.name with
    | PyVal.v4 o =>
      match lookup4 t o none with
      | Except.error e => Except.error e
      | Except.ok none => Except.ok zs
      | Except.ok (some i) => Except.ok { zs with reverse4 := updateZoneAt zs.reverse4 i rr }
    | _ => Except.error PyErr.valueError

/-- Zones.add_rr_reverse6: LPM lookup of the exploded nibbles of rr.name. -/
def zonesAddRRReverse6 (zs : ZonesM) (rr : RRm) : Except PyErr ZonesM :=
  match zs.lpm6 with
  | none => Except.error PyErr.attributeError
  | some t =>
    match rr.name with
    | PyVal.v6 o =>
      match lookup6 t o none with
      | Except.error e => Except.error e
      | Except.ok none => Except.ok zs
      | Except.ok (some i) => Except.ok { zs with reverse6 := updateZoneAt zs.reverse6 i rr }
    | _ => Except.error PyErr.valueError

/-! ### Records (class Record / class Records) -/

/-- One input record.  `mac` models `dnsmgr_util.Record.mac_address`
(the `Record` class in dnsmgr.py simply never sets it). -/
structure RecordM where
  domain : Option String
  ttl : String
  name : String
  typ : String
  values : List PyVal
  mac : Option String := none
  deriving DecidableEq, Repr

/-- `"%s.%s" % (name, domain)`. -/
def recordFqdn (r : RecordM) : String := r.name ++ "." ++ domStr r.domain

/-- The `_records` dict key `fqdn + chr(0) + typ`. -/
def recordsKey (r : RecordM) : String :=
  recordFqdn r ++ String.mk [Char.ofNat 0] ++ r.typ

/-- The record store: current `$DOMAIN` and the keyed records in
insertion order. -/
structure RecordsM where
  domain : Option String
  recs : List (String × RecordM)
  deriving DecidableEq, Repr

/-- Records._add: merge values into an existing `(fqdn, typ)` entry or
append a new one. -/
def recordsAdd (recs : List (String × RecordM)) (r : RecordM) : List (String × RecordM) :=
  let key := recordsKey r
  if (recs.lookup key).isSome then
    recs.map (fun e => if e.1 = key then (e.1, { e.2 with values := e.2.values ++ r.values }) else e)
  else recs ++ [(key, r)]

/-- Records.__iter__: records in ascending key order. -/
def recordsSorted (rs : RecordsM) : List RecordM :=
  (stableSort (fun a b => csLe a.1.data b.1.data) rs.recs).map Prod.snd

/-- verify_dnsname: every character from `[0-9A-Za-z_.-]`. -/
def verify_dnsname (s : String) : Bool :=
  s.data.all (fun c => c.isDigit || c.isAlpha || c = '_' || c = '-' || c = '.')

/-- Python `str.upper()` (ASCII). -/
def pyUpper (s : String) : String := String.mk (s.data.map Char.toUpper)

/-- The accepted opaque record types. -/
def opaqueTypes : List String := ["CNAME", "MX", "NS", "PTR", "SRV", "SSHFP", "TLSA", "TSIG", "TXT"]

/-- The `name / optional ttl / typ / value` parse both loaders share
verbatim: split with maxsplit 3, validate the name, pop a ttl if the next
field is all digits, upper-case the type, parse A/AAAA values as
addresses, accept the other known types opaquely. -/
def parseNameTtlTypValue (line : String) :
    Except PyErr (String × String × String × PyVal) :=
  match pySplitWs line 3 with
  | [] => Except.error PyErr.valueError
  | [_] => Except.error PyErr.valueError
  | name :: rest =>
    if name ≠ "@" ∧ ¬ verify_dnsname name then Except.error PyErr.valueError
    else
      let ttlRest : String × List String :=
        match rest with
        | t :: r2 => if pyIsdigit t.data then (t, r2) else ("", rest)
        | [] => ("", rest)
      match ttlRest.2 with
      | [] => Except.error PyErr.indexError
      | typ0 :: rest3 =>
        let typ := pyUpper typ0
        match rest3 with
        | [] => Except.error PyErr.indexError
        | value0 :: _ =>
          if typ = "A" then
            match pyParseIPv4 value0 with
            | some o => Except.ok (name, ttlRest.1, typ, PyVal.v4 o)
            | none => Except.error PyErr.valueError
          else if typ = "AAAA" then
            match pyParseIPv6 value0 with
            | some o => Except.ok (name, ttlRest.1, typ, PyVal.v6 o)
            | none => Except.error PyErr.valueError
          else if opaqueTypes.contains typ then Except.ok (name, ttlRest.1, typ, PyVal.s value0)
          else Except.error PyErr.valueError

/-! ### Records.load (dnsmgr.py) -/

/-- Handle one record line of dnsmgr.py Records.load (no options are
parsed in this loader) and add the record. -/
def recordsProcessLine (st : RecordsM) (line : String) : Except PyErr RecordsM :=
  match parseNameTtlTypValue line with
  | Except.error e => Except.error e
  | Except.ok (name, ttl, typ, value) =>
    Except.ok { st with recs := recordsAdd st.recs ⟨st.domain, ttl, name, typ, [value], none⟩ }

/-- The line loop of dnsmgr.py Records.load: skip blanks and `#`/`;`
comments, handle `$DOMAIN` and `$INCLUDE`, otherwise parse a record. -/
def recordsLoadLines (loadF : String → RecordsM → Except PyErr RecordsM) :
    List String → RecordsM → Except PyErr RecordsM
  | [], st => Except.ok st
  | l :: rest, st =>
    let line := pyRstrip l
    match line.data with
    | [] => recordsLoadLines loadF rest st
    | c :: _ =>
      if c = '#' ∨ c = ';' then recordsLoadLines loadF rest st
      else if c = '$' then
        match pySplitWs line 2 with
        | [] => Except.error PyErr.valueError
        | [_] => Except.error PyErr.valueError
        | cmd :: arg :: _ =>
          if cmd = "$DOMAIN" then recordsLoadLines loadF rest { st with domain := some arg }
          else if cmd = "$INCLUDE" then
            match loadF arg st with
            | Except.error e => Except.error e
            | Except.ok st2 => recordsLoadLines loadF rest st2
          else Except.error PyErr.valueError
      else
        match recordsProcessLine st line with
        | Except.error e => Except.error e
        | Except.ok st2 => recordsLoadLines loadF rest st2

/-- dnsmgr.py Records.load on a filesystem of record files, with fuel for
the `$INCLUDE` recursion (exhaustion models `RecursionError`). -/
def recordsLoadFile : Nat → List (String × List String) → String → RecordsM →
    Except PyErr RecordsM
  | 0, _, _, _ => Except.error PyErr.recursionError
  | Nat.succ fuel, files, fn, st =>
    match files.lookup fn with
    | none => Except.error PyErr.fileNotFoundError
    | some lines => recordsLoadLines (recordsLoadFile fuel files) lines st

/-! ### DNS_Mgr.rebuild (dnsmgr.py): discover, index, route

The final per-zone save loop is the saveZone model above; the routing
stage below builds the zone contents the save loop consumes. -/

/-- The zone-discovery loop: master zones only, dispatched on the
reverse-zone suffixes. -/
def rebuildAddZones : List (String × String) → ZonesM → Except PyErr ZonesM
  | [], zs => Except.ok zs
  | (name, typ) :: rest, zs =>
    if typ ≠ "master" then rebuildAddZones rest zs
    else if pyEndsWith name ".in-addr.arpa" then
      match zonesAddZoneReverse4 zs name with
      | Except.error e => Except.error e
      | Except.ok zs2 => rebuildAddZones rest zs2
    else if pyEndsWith name ".ip6.arpa" then
      match zonesAddZoneReverse6 zs name with
      | Except.error e => Except.error e
      | Except.ok zs2 => rebuildAddZones rest zs2
    else rebuildAddZones rest (zonesAddZone zs name)

/-- Route the values of one A record: forward RR plus synthesised reverse
PTR per value.  No reverse flag is consulted (the Record class used by
rebuild has none). -/
def routeA (r : RecordM) : List PyVal → ZonesM → Except PyErr ZonesM
  | [], zs => Except.ok zs
  | v :: vs, zs =>
    let zs1 := zonesAddRR zs ⟨r.domain, r.ttl, PyVal.s r.name, r.typ, v⟩
    match zonesAddRRReverse4 zs1 ⟨r.domain, r.ttl, v, "PTR", PyVal.s r.name⟩ with
    | Except.error e => Except.error e
    | Except.ok zs2 => routeA r vs zs2

/-- Route the values of one AAAA record. -/
def routeAAAA (r : RecordM) : List PyVal → ZonesM → Except PyErr ZonesM
  | [], zs => Except.ok zs
  | v :: vs, zs =>
    let zs1 := zonesAddRR zs ⟨r.domain, r.ttl, PyVal.s r.name, r.typ, v⟩
    match zonesAddRRReverse6 zs1 ⟨r.domain, r.ttl, v, "PTR", PyVal.s r.name⟩ with
    | Except.error e => Except.error e
    | Except.ok zs2 => routeAAAA r vs zs2

/-- Route the values of any other record type: forward only. -/
def routeOther (r : RecordM) : List PyVal → ZonesM → ZonesM
  | [], zs => zs
  | v :: vs, zs =>
    routeOther r vs (zonesAddRR zs ⟨r.domain, r.ttl, PyVal.s r.name, r.typ, v⟩)

/-- Route one record by type. -/
def routeRecord (zs : ZonesM) (r : RecordM) : Except PyErr ZonesM :=
  if r.typ = "A" then routeA r r.values zs
  else if r.typ = "AAAA" then routeAAAA r r.values zs
  else Except.ok (routeOther r r.values zs)

/-- The record loop of rebuild. -/
def routeRecords : List RecordM → ZonesM → Except PyErr ZonesM
  | [], zs => Except.ok zs
  | r :: rest, zs =>
    match routeRecord zs r with
    | Except.error e => Except.error e
    | Except.ok zs2 => routeRecords rest zs2

/-- DNS_Mgr.rebuild up to (and excluding) the save loop: build the zone
set from the discovered zone infos, init_search, then route every record
in Records iteration order. -/
def rebuildRoute (zonesinfo : List (String × String)) (records : RecordsM) :
    Except PyErr ZonesM :=
  match rebuildAddZones zonesinfo zonesEmpty with
  | Except.error e => Except.error e
  | Except.ok zs =>
    match zonesInitSearch zs with
    | Except.error e => Except.error e
    | Except.ok zs2 => routeRecords (recordsSorted records) zs2

/-! ### file_loader.py -/

/-- `os.path.basename`. -/
def pyBasename (s : String) : String :=
  String.mk ((s.data.reverse.takeWhile (fun c => c ≠ '/')).reverse)

/-- Loader._get_boolean.  The truthy/falsy sets follow the source; for any
other value the source executes
`raise ValueError('Invalid value %s, ...' % tmp[1])`, and the name `tmp`
is unbound in that scope, so building the message raises `NameError`
before any `ValueError` exists. -/
def getBoolean (value : String) : Except PyErr Bool :=
  let v := pyLower value
  if ["on", "off", "true", "false", "1", "0", "t", "f", "yes", "no"].contains (pyLower v) then
    Except.ok (["on", "true", "1", "t", "yes"].contains v)
  else Except.error PyErr.nameError

/-- Loader state: current domain and the PTR-synthesis defaults. -/
structure LoaderSt where
  domain : String
  reverse4 : Bool
  reverse6 : Bool
  deriving DecidableEq, Repr

/-- The `;key=val` option scan of Loader.load. -/
def optsFold : List String → Option String × Option Bool →
    Except PyErr (Option String × Option Bool)
  | [], acc => Except.ok acc
  | opt :: rest, (mac, rev) =>
    let kv := pyPartition opt '='
    if kv.1 = "mac" then optsFold rest (some kv.2.1, rev)
    else if kv.1 = "reverse" then
      match getBoolean kv.2.1 with
      | Except.error e => Except.error e
      | Except.ok b => optsFold rest (mac, some b)
    else optsFold rest (mac, rev)

/-- Strip and interpret the trailing `;`-introduced options of a record
line; returns the remaining line plus the mac / reverse options. -/
def parseRecordOptions (line : String) :
    Except PyErr (String × Option String × Option Bool) :=
  if pyContainsChar line ';' then
    let lr := pyRpartition line ';'
    match optsFold (pySplitChar lr.2 ' ') (none, none) with
    | Except.error e => Except.error e
    | Except.ok (mac, rev) => Except.ok (lr.1, mac, rev)
  else Except.ok (line, none, none)

/-- The full parse of one record line of Loader.load (everything before
the `util.Record(...)` construction). -/
def parseRecordLine (line : String) :
    Except PyErr ((String × String × String × PyVal) × Option String × Option Bool) :=
  match parseRecordOptions line with
  | Except.error e => Except.error e
  | Except.ok (l2, mac, rev) =>
    match parseNameTtlTypValue l2 with
    | Except.error e => Except.error e
    | Except.ok p => Except.ok (p, mac, rev)

/-- A line the loader skips or treats as a directive: blank after
rstrip, or starting with `#`, `;` or `$`. -/
def isSkippableLine (l : String) : Bool :=
  match (pyRstrip l).data with
  | [] => true
  | c :: _ => c = '#' || c = ';' || c = '$'

/-- A valid record line: not blank/comment/directive, and its rstripped
form parses all the way to the record construction. -/
def isValidRecordLine (l : String) : Bool :=
  !isSkippableLine l && (parseRecordLine (pyRstrip l)).isOk

/-- The keyword parameters `dnsmgr_util.Record.__init__` accepts. -/
def recordInitAccepted : List String :=
  ["domain", "ttl", "name", "typ", "value", "mac_address"]

/-- The keyword arguments Loader.load passes to `util.Record(...)`. -/
def loaderRecordCallKwargs : List String :=
  ["domain", "ttl", "name", "typ", "value", "mac_address", "reverse"]

/-- The attributes of class `dnsmgr_util.Records` (there is no `add`). -/
def recordsClassAttrs : List String :=
  ["_records", "domain", "_add", "items", "get", "load"]

/-- One record line of Loader.load after the directive dispatch: parse,
resolve the reverse default, then `util.Record(**kwargs)` — which rejects
the unexpected `reverse` keyword with `TypeError` — and `records.add`,
an attribute `Records` does not have. -/
def loaderProcessRecordLine (st : LoaderSt) (line : String) : Except PyErr LoaderSt :=
  match parseRecordLine line with
  | Except.error e => Except.error e
  | Except.ok ((_name, _ttl, typ, _value), _mac, rev) =>
    let _rev2 : Option Bool :=
      match rev with
      | some b => some b
      | none =>
        if typ = "A" then some st.reverse4
        else if typ = "AAAA" then some st.reverse6
        else none
    if loaderRecordCallKwargs.all (fun k => recordInitAccepted.contains k) then
      if recordsClassAttrs.contains "add" then Except.ok st
      else Except.error PyErr.attributeError
    else Except.error PyErr.typeError

/-- The line loop of Loader.load. -/
def loaderLoadLines (loadF : String → LoaderSt → Except PyErr LoaderSt) :
    List String → LoaderSt → Except PyErr LoaderSt
  | [], st => Except.ok st
  | l :: rest, st =>
    let line := pyRstrip l
    match line.data with
    | [] => loaderLoadLines loadF rest st
    | c :: _ =>
      if c = '#' ∨ c = ';' then loaderLoadLines loadF rest st
      else if c = '$' then
        match pySplitWs line 2 with
        | [] => Except.error PyErr.valueError
        | [_] => Except.error PyErr.valueError
        | cmd :: arg :: _ =>
          if cmd = "$DOMAIN" then loaderLoadLines loadF rest { st with domain := arg }
          else if cmd = "$INCLUDE" then
            match loadF arg st with
            | Except.error e => Except.error e
            | Except.ok st2 => loaderLoadLines loadF rest st2
          else if cmd = "$REVERSE" then
            match getBoolean arg with
            | Except.error e => Except.error e
            | Except.ok b => loaderLoadLines loadF rest { st with reverse4 := b, reverse6 := b }
          else if cmd = "$REVERSE4" then
            match getBoolean arg with
            | Except.error e => Except.error e
            | Except.ok b => loaderLoadLines loadF rest { st with reverse4 := b }
          else if cmd = "$REVERSE6" then
            match getBoolean arg with
            | Except.error e => Except.error e
            | Except.ok b => loaderLoadLines loadF rest { st with reverse6 := b }
          else Except.error PyErr.valueError
      else
        match loaderProcessRecordLine st line with
        | Except.error e => Except.error e
        | Except.ok st2 => loaderLoadLines loadF rest st2

/-- file_loader.Loader.load on a filesystem of record files; each call
first resets the current domain to the basename of the opened file. -/
def loaderLoadFile : Nat → List (String × List String) → String → LoaderSt →
    Except PyErr LoaderSt
  | 0, _, _, _ => Except.error PyErr.recursionError
  | Nat.succ fuel, files, fn, st =>
    match files.lookup fn with
    | none => Except.error PyErr.fileNotFoundError
    | some lines => loaderLoadLines (loaderLoadFile fuel files) lines { st with domain := pyBasename fn }

/-! ### DHCPd_manager.update (dnsmgr_isc_dhcp.py) -/

/-- MyFile.replace on the modelled filesystem: compare the buffered
content with the file on disk (MyFile.equal opens the real file, so a
missing file raises), rewrite only when they differ; returns whether it
replaced. -/
def myFileReplace (fs : List (String × List String)) (path : String)
    (content : List String) : Except PyErr (List (String × List String) × Bool) :=
  match fsGet fs path with
  | none => Except.error PyErr.fileNotFoundError
  | some cur =>
    if cur = content then Except.ok (fs, false)
    else Except.ok (fsSet fs path content, true)

/-- The fixed header both DHCP include buffers start with. -/
def dhcpHeader : List String :=
  ["#", "# This file is automatically created by DnsMgr", "# Do not edit, changes will be lost", "#"]

/-- One emitted host block. -/
def dhcpHostBlock (r : RecordM) : List String :=
  let name := String.mk ((recordFqdn r).data.map (fun c => if c = '.' then '_' else c))
  ["", "host " ++ name ++ " \x7b",
   "  hardware ethernet " ++ r.mac.getD "" ++ ";",
   "  fixed-address " ++ pyStr ((r.values.head?).getD (PyVal.s "")) ++ ";",
   "\x7d"]

/-- The IPv4 include buffer: header plus a host block per A record with a
(truthy) mac option.  The AAAA branch of the source only prints. -/
def dhcpV4Content (records : List RecordM) : List String :=
  dhcpHeader ++ records.flatMap (fun r =>
    if r.typ = "A" then
      match r.mac with
      | some m => if m = "" then [] else dhcpHostBlock r
      | none => []
    else [])

/-- DHCPd_manager.update: build the buffers, then replace-and-restart per
family.  The IPv6 branch of the source tests `ipv4_file.replace()` (not
the IPv6 file), and its restart helper dereferences `None.remote`, so a
true second replace would raise `AttributeError` before any restart runs. -/
def dhcpUpdate (conf4 conf6 : Option String) (records : List RecordM) (st : MSt) :
    MSt × Option PyErr :=
  match conf4, conf6 with
  | none, none => (st, some PyErr.systemExit)
  | _, _ =>
    let v4content := dhcpV4Content records
    let step4 : MSt × Option PyErr :=
      match conf4 with
      | none => (st, none)
      | some p4 =>
        match myFileReplace st.fs p4 v4content with
        | Except.error e => (st, some e)
        | Except.ok (fs1, r1) =>
          (⟨fs1, st.tr ++ (if r1 then [Action.restartV4] else [])⟩, none)
    match step4 with
    | (st1, some e) => (st1, some e)
    | (st1, none) =>
      match conf6 with
      | none => (st1, none)
      | some _p6 =>
        match conf4 with
        | none => (st1, some PyErr.nameError)
        | some p4 =>
          match myFileReplace st1.fs p4 v4content with
          | Except.error e => (st1, some e)
          | Except.ok (fs2, r2) =>
            if r2 then (⟨fs2, st1.tr⟩, some PyErr.attributeError)
            else (⟨fs2, st1.tr⟩, none)

/-! ### Concrete instances used by the claim theorems -/

/-- Nibbles of the network address of `2001:470:dfec:1::/64` as
`add_zone_reverse6` derives it. -/
def dfec1Net : List Nat := [2, 0, 0, 1, 0, 4, 7, 0, 13, 15, 14, 12, 0, 0, 0, 1] ++ List.replicate 16 0

/-- Nibbles of the address `2001:470:dfec:2::1`, outside that `/64`. -/
def dfec2Addr : List Nat :=
  [2, 0, 0, 1, 0, 4, 7, 0, 13, 15, 14, 12, 0, 0, 0, 2] ++ List.replicate 15 0 ++ [1]

/-- Nibbles of the network address of `2001:470:dfec:a::/64` (terminal
nibble is the hex letter a). -/
def dfecANet : List Nat := [2, 0, 0, 1, 0, 4, 7, 0, 13, 15, 14, 12, 0, 0, 0, 10] ++ List.replicate 16 0

/-- A records file declaring one A record with `reverse=off`. -/
def c6Files : List (String × List String) :=
  [("records", ["$DOMAIN example.com", "www A 192.0.2.5 ;reverse=off"])]

/-- Discovered zones: the forward zone and a covering reverse zone. -/
def c6Zoneinfo : List (String × String) :=
  [("example.com", "master"), ("2.0.192.in-addr.arpa", "master")]

/-- Load the records file with dnsmgr.py Records.load, then run the
discover/index/route stages of DNS_Mgr.rebuild. -/
def c6Run : Except PyErr ZonesM :=
  match recordsLoadFile 10 c6Files "records" ⟨none, []⟩ with
  | Except.ok rs => rebuildRoute c6Zoneinfo rs
  | Except.error e => Except.error e

/-- The synthesised PTR that lands in the reverse zone. -/
def c6PTR : RRm := ⟨some "example.com", "", PyVal.v4 [192, 0, 2, 5], "PTR", PyVal.s "www"⟩

/-- The forward A resource record of the same declaration. -/
def c6Fwd : RRm := ⟨some "example.com", "", PyVal.s "www", "A", PyVal.v4 [192, 0, 2, 5]⟩

/-- DHCP include paths for the update run. -/
def dhcpP4 : String := "/etc/dhcp/dnsmgr-v4.conf"

/-- The IPv6 include path. -/
def dhcpP6 : String := "/etc/dhcp/dnsmgr-v6.conf"

/-- Disk state: the IPv4 include-file already matches the generated
content (no record has a mac), the IPv6 one is stale. -/
def dhcpFs0 : List (String × List String) := [(dhcpP4, dhcpHeader), (dhcpP6, ["stale"])]

/-- The DHCP update run on that state with an empty record set. -/
def c7Run : MSt × Option PyErr := dhcpUpdate (some dhcpP4) (some dhcpP6) [] ⟨dhcpFs0, []⟩

/-- An empty forward zone for the saveZone run. -/
def c1Zone : ZoneM := mkZone "example.com" "forward"

/-- The authoritative zone file behind it, with a serial line. -/
def c1Zf : List String := ["@ SOA ns root (", "          2024010107  ; Serial", ")"]

/-- Initial state: the zone file exists, the include-file does not. -/
def c1St : MSt := ⟨[("/etc/bind/db.example.com", c1Zf)], []⟩

/-- The saveZone run on that state. -/
def c1Run : MSt × Option String :=
  saveZone ⟨2024, 1, 9⟩ c1Zone "example.com" "/etc/bind/db.example.com" "master"
    "/etc/bind/primary/include" "{zone}" "/tmp/dnsmgr" id c1St

/-! ### Claim theorems -/

/-- A decimal digit character below ten really is a digit. -/
theorem digit_of_lt10 (m : Nat) (h : m < 10) : pyIsDigitChar (digitChar m) = true := by
  interval_cases m <;> decide

/-- Every character of a rendered serial is a digit. -/
theorem serial_chars_digits (dt : DateM) (k : Nat) :
    (fmtDate dt ++ pad2 k).all pyIsDigitChar = true := by
  simp only [fmtDate, pad4, pad2, List.append_assoc, List.cons_append, List.nil_append,
    List.all_cons, List.all_nil, Bool.and_eq_true, Bool.and_true]
  and_intros <;> exact digit_of_lt10 _ (Nat.mod_lt _ (by norm_num))

/-- A rendered serial has exactly ten characters. -/
theorem serial_chars_len (dt : DateM) (k : Nat) :
    (fmtDate dt ++ pad2 k).length = 10 := by
  simp [fmtDate, pad4, pad2]

/-- Below the maximum representable date, `date + timedelta(days=1)`
agrees with the total calendar successor. -/
theorem nextDay_eq_calSucc (dt : DateM) (hv : validDate dt = true)
    (hne : dt ≠ ⟨9999, 12, 31⟩) : nextDay dt = some (calSucc dt) := by
  simp only [validDate, Bool.and_eq_true, decide_eq_true_eq] at hv
  unfold nextDay calSucc
  by_cases hd : dt.d < daysInMonth dt.y dt.m
  · simp [hd]
  · simp only [hd, if_false]
    by_cases hm : dt.m < 12
    · simp [hm]
    · have hm12 : dt.m = 12 := by omega
      have hdim : daysInMonth dt.y dt.m = 31 := by rw [hm12]; simp [daysInMonth]
      have hy : dt.y < 9999 := by
        rcases Nat.lt_or_ge dt.y 9999 with h | h
        · exact h
        · exfalso
          apply hne
          have hy9 : dt.y = 9999 := by omega
          have hd31 : dt.d = 31 := by omega
          cases dt
          simp_all
      simp [hm, hy]

/-- Reading back the path just written. -/
theorem fsGet_set_eq (fs : List (String × List String)) (p : String) (v : List String) :
    fsGet (fsSet fs p v) p = some v := by
  simp [fsGet, fsSet, List.find?]

/-- Writing one path leaves every other path unchanged. -/
theorem fsGet_set_ne (fs : List (String × List String)) (p q : String)
    (v : List String) (h : p ≠ q) : fsGet (fsSet fs p v) q = fsGet fs q := by
  have hb : (p == q) = false := by simpa using h
  simp [fsGet, fsSet, List.find?, hb]

/-- C5: any execution of increaseSoaSerial that ends in an error leaves
the authoritative zone file byte-for-byte unchanged — in fact it leaves
every path other than the temp copy unchanged, and issues no command
events (the reload only follows a successful install). -/
theorem increaseSoaSerial_error_preserves_zonefile
    (today : DateM) (ziname zifile zityp tmpdir : String)
    (copyF : List String → List String) (st : MSt) (e : String)
    (hne : tmpdir ++ "/" ++ ziname ≠ zifile)
    (herr : (incSoaSerial today ziname zifile zityp tmpdir copyF st).2 = some e) :
    fsGet (incSoaSerial today ziname zifile zityp tmpdir copyF st).1.fs zifile =
      fsGet st.fs zifile ∧
    (∀ q, tmpdir ++ "/" ++ ziname ≠ q →
      fsGet (incSoaSerial today ziname zifile zityp tmpdir copyF st).1.fs q = fsGet st.fs q) ∧
    (incSoaSerial today ziname zifile zityp tmpdir copyF st).1.tr = st.tr := by
  simp only [incSoaSerial] at herr ⊢
  by_cases h1 : zityp ≠ "master"
  · simp only [if_pos h1] at herr ⊢
    exact ⟨trivial, fun q _ => trivial, trivial⟩
  · simp only [if_neg h1] at herr ⊢
    rcases hz : fsGet st.fs zifile with _ | src
    · simp only [hz] at herr ⊢
      exact ⟨trivial, fun q _ => trivial, trivial⟩
    · simp only [hz] at herr ⊢
      by_cases hcp : copyF src ≠ src
      · simp only [if_pos hcp] at herr ⊢
        exact ⟨(fsGet_set_ne _ _ _ _ hne).trans hz, fun q hq => fsGet_set_ne _ _ _ _ hq, trivial⟩
      · simp only [if_neg hcp] at herr ⊢
        rcases hla : locateAndAdvance today (copyF src) with e2 | ⟨idx, p, ns⟩
        · simp only [hla] at herr ⊢
          exact ⟨(fsGet_set_ne _ _ _ _ hne).trans hz, fun q hq => fsGet_set_ne _ _ _ _ hq, trivial⟩
        · simp only [hla] at herr ⊢
          have htmp : fsGet (fsSet (fsSet st.fs (tmpdir ++ "/" ++ ziname) (copyF src))
              (tmpdir ++ "/" ++ ziname) (patchSerial (copyF src) idx p ns))
              (tmpdir ++ "/" ++ ziname) = some (patchSerial (copyF src) idx p ns) :=
            fsGet_set_eq _ _ _
          have hzi : fsGet (fsSet (fsSet st.fs (tmpdir ++ "/" ++ ziname) (copyF src))
              (tmpdir ++ "/" ++ ziname) (patchSerial (copyF src) idx p ns)) zifile = some src :=
            ((fsGet_set_ne _ _ _ _ hne).trans ((fsGet_set_ne _ _ _ _ hne).trans hz))
          simp only [htmp, hzi] at herr ⊢
          by_cases hsz : lineBytes (patchSerial (copyF src) idx p ns) ≠ lineBytes src
          · simp only [if_pos hsz] at herr ⊢
            refine ⟨hzi, fun q hq => ?_, trivial⟩
            exact (fsGet_set_ne _ _ _ _ hq).trans (fsGet_set_ne _ _ _ _ hq)
          · simp only [if_neg hsz] at herr
            exact absurd herr (by simp)

/-- C5 (witness): a concrete failing run — the zone file has no
`"; serial"` line, increaseSoaSerial reports the error, and the
authoritative file and the trace are untouched. -/
theorem increaseSoaSerial_error_preserves_zonefile_witness :
    ("/tmp/dnsmgr" ++ "/" ++ "example.com" ≠ "/etc/bind/db.example.com") ∧
    (incSoaSerial ⟨2024, 1, 9⟩ "example.com" "/etc/bind/db.example.com" "master"
      "/tmp/dnsmgr" id ⟨[("/etc/bind/db.example.com", ["no serial here"])], []⟩).2 =
      some "Cant find serial number in file" ∧
    fsGet (incSoaSerial ⟨2024, 1, 9⟩ "example.com" "/etc/bind/db.example.com" "master"
      "/tmp/dnsmgr" id ⟨[("/etc/bind/db.example.com", ["no serial here"])], []⟩).1.fs
      "/etc/bind/db.example.com" =
      fsGet [("/etc/bind/db.example.com", ["no serial here"])] "/etc/bind/db.example.com" :=
  ⟨by decide, by decide,
    (increaseSoaSerial_error_preserves_zonefile ⟨2024, 1, 9⟩ "example.com"
      "/etc/bind/db.example.com" "master" "/tmp/dnsmgr" id
      ⟨[("/etc/bind/db.example.com", ["no serial here"])], []⟩
      "Cant find serial number in file" (by decide) (by decide)).1⟩

/-- scanBack returns exactly the greatest digit position at or below its
start index. -/
theorem scanBack_some_iff (cs : List Char) (p q : Nat) :
    scanBack cs p = some q ↔
      q ≤ p ∧ isDigitAt cs q = true ∧
        ∀ j, q < j → j ≤ p → isDigitAt cs j = false := by
  induction p with
  | zero =>
    unfold scanBack
    by_cases h : isDigitAt cs 0
    · rw [if_pos h]
      constructor
      · intro h2
        cases h2
        exact ⟨Nat.le_refl 0, h, fun j hj hj2 => absurd (Nat.lt_of_lt_of_le hj hj2)
          (Nat.lt_irrefl _)⟩
      · rintro ⟨hq, _, _⟩
        have hq0 : q = 0 := Nat.le_zero.mp hq
        subst hq0
        rfl
    · rw [if_neg h]
      constructor
      · intro h2
        exact absurd h2 (by simp)
      · rintro ⟨hq, hd, _⟩
        have hq0 : q = 0 := Nat.le_zero.mp hq
        subst hq0
        exact absurd hd h
  | succ p ih =>
    unfold scanBack
    by_cases h : isDigitAt cs (p + 1)
    · rw [if_pos h]
      constructor
      · intro h2
        cases h2
        exact ⟨Nat.le_refl _, h, fun j hj hj2 => absurd (Nat.lt_of_lt_of_le hj hj2)
          (Nat.lt_irrefl _)⟩
      · rintro ⟨hq, hd, hnone⟩
        rcases Nat.lt_or_ge q (p + 1) with hlt | hge
        · exact absurd h (by simp [hnone (p + 1) hlt (Nat.le_refl _)])
        · have hq1 : q = p + 1 := Nat.le_antisymm hq hge
          subst hq1
          rfl
    · rw [if_neg h]
      rw [ih]
      have hf : isDigitAt cs (p + 1) = false := by simpa using h
      constructor
      · rintro ⟨hq, hd, hnone⟩
        refine ⟨Nat.le_succ_of_le hq, hd, fun j hj hj2 => ?_⟩
        rcases Nat.lt_or_ge j (p + 1) with hlt | hge
        · exact hnone j hj (by omega)
        · have hj1 : j = p + 1 := Nat.le_antisymm hj2 hge
          subst hj1
          exact hf
      · rintro ⟨hq, hd, hnone⟩
        have hq2 : q ≤ p := by
          rcases Nat.lt_or_ge q (p + 1) with hlt | hge
          · omega
          · have hq1 : q = p + 1 := Nat.le_antisymm hq hge
            subst hq1
            exact absurd hd (by simp [hf])
        exact ⟨hq2, hd, fun j hj hj2 => hnone j hj (Nat.le_succ_of_le hj2)⟩

/-- scanBack fails exactly when no digit exists at or below its start. -/
theorem scanBack_none_iff (cs : List Char) (p : Nat) :
    scanBack cs p = none ↔ ∀ j, j ≤ p → isDigitAt cs j = false := by
  induction p with
  | zero =>
    unfold scanBack
    by_cases h : isDigitAt cs 0
    · rw [if_pos h]
      simp only [reduceCtorEq, false_iff, not_forall]
      exact ⟨0, Nat.le_refl 0, by simp [h]⟩
    · rw [if_neg h]
      constructor
      · intro _ j hj
        have hj0 : j = 0 := Nat.le_zero.mp hj
        subst hj0
        simpa using h
      · intro _
        rfl
  | succ p ih =>
    unfold scanBack
    by_cases h : isDigitAt cs (p + 1)
    · rw [if_pos h]
      simp only [reduceCtorEq, false_iff, not_forall]
      exact ⟨p + 1, Nat.le_refl _, by simp [h]⟩
    · rw [if_neg h]
      rw [ih]
      constructor
      · intro hall j hj
        rcases Nat.lt_or_ge j (p + 1) with hlt | hge
        · exact hall j (by omega)
        · have hj1 : j = p + 1 := Nat.le_antisymm hj hge
          subst hj1
          simpa using h
      · intro hall j hj
        exact hall j (Nat.le_succ_of_le hj)

/-- A digit position is inside the string. -/
theorem isDigitAt_lt_length (cs : List Char) (q : Nat) (h : isDigitAt cs q = true) :
    q < cs.length := by
  unfold isDigitAt at h
  rcases hg : cs.get? q with _ | c
  · rw [hg] at h
    exact absurd h (by simp)
  · exact List.get?_eq_some.mp hg |>.choose

/-- C8: locating the current serial.  If the scan succeeds with offset
`p`, then `q = p + 9` is the last digit position at or below the byte
just before the `"; Serial"` tag (every later position up to the tag is a
non-digit), and the ten characters starting at `p` are exactly ten
digits.  If the scan fails, no such position exists: there is no last
digit position with ten all-digit characters ending at it.  A scan
failure makes increaseSoaSerial fail with that error, so no serial is
advanced (and by the C5 theorem the zone file is untouched). -/
theorem serial_scan_ten_digits :
    (∀ (serial : List Char) (p : Nat), scanSerialPos serial = Except.ok p →
      ∃ q, p + 9 = q ∧ q ≤ serial.length - 8 ∧ isDigitAt serial q = true ∧
        (∀ j, q < j → j ≤ serial.length - 8 → isDigitAt serial j = false) ∧
        ((serial.drop p).take 10).length = 10 ∧
        ((serial.drop p).take 10).all pyIsDigitChar = true) ∧
    (∀ (serial : List Char) (e : String), scanSerialPos serial = Except.error e →
      ¬∃ q, q ≤ serial.length - 8 ∧ isDigitAt serial q = true ∧
        (∀ j, q < j → j ≤ serial.length - 8 → isDigitAt serial j = false) ∧
        9 ≤ q ∧ pyIsdigit ((serial.drop (q - 9)).take 10) = true) ∧
    (∀ (today : DateM) (ziname zifile tmpdir : String) (st : MSt)
        (src : List String) (idx : Nat) (line : String) (e : String),
      fsGet st.fs zifile = some src →
      findSerialLine src = some (idx, line) →
      scanSerialPos line.data = Except.error e →
      (incSoaSerial today ziname zifile "master" tmpdir id st).2 = some e) := by
  refine ⟨?_, ?_, ?_⟩
  · intro serial p hok
    unfold scanSerialPos at hok
    rcases hsb : scanBack serial (serial.length - 8) with _ | q
    · simp only [hsb, reduceCtorEq] at hok
    · simp only [hsb] at hok
      by_cases h9 : q < 9
      · simp only [if_pos h9, reduceCtorEq] at hok
      · simp only [if_neg h9] at hok
        by_cases hten : pyIsdigit ((serial.drop (q - 9)).take 10) = true
        · simp only [if_pos hten, Except.ok.injEq] at hok
          subst hok
          obtain ⟨hq, hd, hnone⟩ := (scanBack_some_iff serial _ q).mp hsb
          have hlen : q < serial.length := isDigitAt_lt_length serial q hd
          refine ⟨q, by omega, hq, hd, hnone, ?_, ?_⟩
          · rw [List.length_take, List.length_drop]
            omega
          · unfold pyIsdigit at hten
            exact (Bool.and_eq_true_iff.mp hten).2
        · simp only [if_neg hten, reduceCtorEq] at hok
  · intro serial e herr
    rintro ⟨q, hq, hd, hnone, h9, hten⟩
    unfold scanSerialPos at herr
    rcases hsb : scanBack serial (serial.length - 8) with _ | q0
    · have hall := (scanBack_none_iff serial _).mp hsb q hq
      exact absurd hd (by simp [hall])
    · obtain ⟨hq0, hd0, hnone0⟩ := (scanBack_some_iff serial _ q0).mp hsb
      have heq : q = q0 := by
        rcases Nat.lt_trichotomy q q0 with hlt | heq | hgt
        · exact absurd hd0 (by simp [hnone q0 hlt hq0])
        · exact heq
        · exact absurd hd (by simp [hnone0 q hgt hq])
      subst heq
      simp only [hsb] at herr
      rw [if_neg (by omega : ¬ q < 9)] at herr
      rw [if_pos hten] at herr
      exact absurd herr (by simp)
  · intro today ziname zifile tmpdir st src idx line e hfs hfind hscan
    simp only [incSoaSerial, locateAndAdvance, hfs, hfind, hscan, id]
    simp

/-- C8 (witness): the scan applied to the line
`"          2024010101  ; Serial"` succeeds at offset 10, and position 19
is its last digit with the ten digits 2024010101 ending there. -/
theorem serial_scan_ten_digits_witness :
    ∃ q, 10 + 9 = q ∧
      q ≤ ("          2024010101  ; Serial".data).length - 8 ∧
      isDigitAt ("          2024010101  ; Serial".data) q = true ∧
      (∀ j, q < j → j ≤ ("          2024010101  ; Serial".data).length - 8 →
        isDigitAt ("          2024010101  ; Serial".data) j = false) ∧
      ((("          2024010101  ; Serial".data).drop 10).take 10).length = 10 ∧
      ((("          2024010101  ; Serial".data).drop 10).take 10).all pyIsDigitChar = true :=
  serial_scan_ten_digits.1 ("          2024010101  ; Serial".data) 10 (by decide)

/-- A successful traversal preserves length. -/
theorem mapOption_length (f : α → Option β) (l : List α) (bs : List β)
    (h : mapOption f l = some bs) : bs.length = l.length := by
  induction l generalizing bs with
  | nil =>
    cases h
    rfl
  | cons a rest ih =>
    unfold mapOption at h
    rcases hf : f a with _ | b <;> rw [hf] at h
    · exact absurd h (by simp)
    · rcases hm : mapOption f rest with _ | bs2 <;> rw [hm] at h
      · exact absurd h (by simp)
      · cases h
        simp [ih bs2 hm]

/-- Traversal distributes over append. -/
theorem mapOption_append (f : α → Option β) (l1 l2 : List α) (b1 b2 : List β)
    (h1 : mapOption f l1 = some b1) (h2 : mapOption f l2 = some b2) :
    mapOption f (l1 ++ l2) = some (b1 ++ b2) := by
  induction l1 generalizing b1 with
  | nil =>
    cases h1
    simpa using h2
  | cons a rest ih =>
    unfold mapOption at h1 ⊢
    rcases hf : f a with _ | b <;> rw [hf] at h1
    · exact absurd h1 (by simp)
    · rcases hm : mapOption f rest with _ | bs2 <;> rw [hm] at h1
      · exact absurd h1 (by simp)
      · cases h1
        show mapOption f (a :: (rest ++ l2)) = _
        simp only [mapOption]
        rw [hf, ih bs2 hm]
        rfl

/-- Traversal commutes with reversal. -/
theorem mapOption_reverse (f : α → Option β) (l : List α) (bs : List β)
    (h : mapOption f l = some bs) : mapOption f l.reverse = some bs.reverse := by
  induction l generalizing bs with
  | nil =>
    cases h
    rfl
  | cons a rest ih =>
    unfold mapOption at h
    rcases hf : f a with _ | b <;> rw [hf] at h
    · exact absurd h (by simp)
    · rcases hm : mapOption f rest with _ | bs2 <;> rw [hm] at h
      · exact absurd h (by simp)
      · cases h
        simp only [List.reverse_cons]
        exact mapOption_append f rest.reverse [a] bs2.reverse [b] (ih bs2 hm)
          (by simp [mapOption, hf])

/-- Traversing a constant-zero replication. -/
theorem mapOption_replicate (f : String → Option Nat) (n : Nat) (hf : f "0" = some 0) :
    mapOption f (List.replicate n "0") = some (List.replicate n 0) := by
  induction n with
  | zero => rfl
  | succ n ih =>
    simp only [List.replicate_succ]
    unfold mapOption
    rw [hf, ih]

/-- Folding trailing zero octets multiplies by the place value. -/
theorem foldl256_replicate_zero (n : Nat) (acc : Nat) :
    List.foldl (fun a o => a * 256 + o) acc (List.replicate n 0) = acc * 256 ^ n := by
  induction n generalizing acc with
  | zero => simp
  | succ n ih =>
    simp only [List.replicate_succ, List.foldl_cons]
    rw [ih]
    ring

/-- The network string the reverse4 derivation builds always parses: the
octet values come out reversed and zero-padded, the strict host-bit check
passes because the padded octets are zero. -/
theorem ipv4NetworkOfDerived (labels : List String) (vals : List Nat)
    (hk : labels.length ≤ 3) (hv : mapOption pyParseOctet labels = some vals) :
    pyIPv4NetworkOfParts (labels.reverse ++ List.replicate (4 - labels.length) "0")
      (8 * labels.length) =
      some (vals.reverse ++ List.replicate (4 - labels.length) 0, 8 * labels.length) := by
  have hlen := mapOption_length _ _ _ hv
  have hm : mapOption pyParseOctet (labels.reverse ++ List.replicate (4 - labels.length) "0") =
      some (vals.reverse ++ List.replicate (4 - labels.length) 0) :=
    mapOption_append _ _ _ _ _ (mapOption_reverse _ _ _ hv)
      (mapOption_replicate _ _ (by decide))
  unfold pyIPv4NetworkOfParts
  simp only [hm]
  split
  · rfl
  · exfalso
    rename_i hc
    apply hc
    refine ⟨by simp; omega, by omega, ?_⟩
    rw [List.foldl_append, foldl256_replicate_zero]
    have h32 : 32 - 8 * labels.length = 8 * (4 - labels.length) := by omega
    rw [h32, pow_mul]
    norm_num

/-- The network string the reverse6 derivation builds always parses: the
nibble values come out reversed and zero-padded, and the host nibbles are
the padded zeros. -/
theorem ipv6NetworkOfDerived (labels : List String) (vals : List Nat)
    (hk : labels.length ≤ 31) (hv : mapOption parseNibbleLabel labels = some vals) :
    pyIPv6NetworkOfParts (labels.reverse ++ List.replicate (32 - labels.length) "0")
      (4 * labels.length) =
      some (vals.reverse ++ List.replicate (32 - labels.length) 0, 4 * labels.length) := by
  have hlen := mapOption_length _ _ _ hv
  have hm : mapOption parseNibbleLabel
      (labels.reverse ++ List.replicate (32 - labels.length) "0") =
      some (vals.reverse ++ List.replicate (32 - labels.length) 0) :=
    mapOption_append _ _ _ _ _ (mapOption_reverse _ _ _ hv)
      (mapOption_replicate _ _ (by decide))
  unfold pyIPv6NetworkOfParts
  simp only [hm]
  split
  · rfl
  · exfalso
    rename_i hc
    apply hc
    refine ⟨by simp; omega, by omega, by omega, ?_⟩
    have hd : 4 * labels.length / 4 = labels.length := by omega
    have hvlen : vals.reverse.length = labels.length := by simp [hlen]
    rw [hd, ← hvlen, List.drop_left]
    simp

/-- C3: deriving the LPM prefix from a reverse zone name.  Whenever the
zone name parses (at most 3 dotted labels before `.in-addr.arpa`, each a
valid octet; at most 31 single-hex labels before `.ip6.arpa`), the stored
prefix is exactly the reversed labels right-padded with `0` to 4 octets /
32 nibbles with `prefixlen = 8 * labels` / `4 * nibbles`; in particular
`1.168.192.in-addr.arpa` yields `192.168.1.0/24` and
`1.0.0.0.c.e.f.d.0.7.4.0.1.0.0.2.ip6.arpa` yields
`2001:0470:dfec:0001::/64`. -/
theorem reverse_zone_prefix_derivation :
    (∀ (zonename : String) (labels : List String) (vals : List Nat) (zs : ZonesM),
      pyEndsWith zonename ".in-addr.arpa" = true →
      pySplitChar (strDropRight zonename 13) '.' = labels →
      labels.length ≤ 3 →
      mapOption pyParseOctet labels = some vals →
      zonesAddZoneReverse4 zs zonename = Except.ok { zs with reverse4 := zs.reverse4 ++
        [mkRevZone zonename "reverse4"
          (vals.reverse ++ List.replicate (4 - labels.length) 0, 8 * labels.length)] }) ∧
    (∀ (zonename : String) (labels : List String) (vals : List Nat) (zs : ZonesM),
      pyEndsWith zonename ".ip6.arpa" = true →
      pySplitChar (strDropRight zonename 9) '.' = labels →
      labels.length ≤ 31 →
      mapOption parseNibbleLabel labels = some vals →
      zonesAddZoneReverse6 zs zonename = Except.ok { zs with reverse6 := zs.reverse6 ++
        [mkRevZone zonename "reverse6"
          (vals.reverse ++ List.replicate (32 - labels.length) 0, 4 * labels.length)] }) ∧
    (zonesAddZoneReverse4 zonesEmpty "1.168.192.in-addr.arpa").map
        (fun zs => zs.reverse4.map (fun z => z.pfx)) =
      Except.ok [some ([192, 168, 1, 0], 24)] ∧
    (zonesAddZoneReverse6 zonesEmpty "1.0.0.0.c.e.f.d.0.7.4.0.1.0.0.2.ip6.arpa").map
        (fun zs => zs.reverse6.map (fun z => z.pfx)) =
      Except.ok [some ([2, 0, 0, 1, 0, 4, 7, 0, 13, 15, 14, 12, 0, 0, 0, 1] ++
        List.replicate 16 0, 64)] := by
  refine ⟨?_, ?_, by decide, by decide⟩
  · intro zonename labels vals zs hend hsplit hk hv
    unfold zonesAddZoneReverse4
    rw [if_neg (by simp [hend])]
    simp only [hsplit]
    rw [if_neg (by omega)]
    simp only [ipv4NetworkOfDerived labels vals hk hv]
    rfl
  · intro zonename labels vals zs hend hsplit hk hv
    unfold zonesAddZoneReverse6
    rw [if_neg (by simp [hend])]
    simp only [hsplit]
    rw [if_neg (by omega)]
    simp only [ipv6NetworkOfDerived labels vals hk hv]
    rfl

/-- C3 (witness): the derivation applied at `1.168.192.in-addr.arpa`
(labels 1, 168, 192): the stored prefix is the reversed octets padded to
four with prefixlen 24, i.e. `192.168.1.0/24`. -/
theorem reverse_zone_prefix_derivation_witness :
    zonesAddZoneReverse4 zonesEmpty "1.168.192.in-addr.arpa" =
      Except.ok { zonesEmpty with reverse4 := zonesEmpty.reverse4 ++
        [mkRevZone "1.168.192.in-addr.arpa" "reverse4"
          (([1, 168, 192] : List Nat).reverse ++ List.replicate (4 - 3) 0, 8 * 3)] } :=
  reverse_zone_prefix_derivation.1 "1.168.192.in-addr.arpa" ["1", "168", "192"]
    [1, 168, 192] zonesEmpty (by decide) (by decide) (by decide) (by decide)

/-- Any line reaching the record-construction path of Loader.load fails:
if the parse fails, that error propagates; if it succeeds, the
`util.Record(**kwargs)` call carries the `reverse` keyword that
`Record.__init__` does not accept and raises `TypeError` (and even
without it, `records.add` is not an attribute of `Records`). -/
theorem loaderProcessRecordLine_isError (st : LoaderSt) (line : String) :
    ∃ e, loaderProcessRecordLine st line = Except.error e := by
  unfold loaderProcessRecordLine
  rcases h : parseRecordLine line with e | ⟨⟨name, ttl, typ, value⟩, mac, rev⟩
  · exact ⟨e, rfl⟩
  · refine ⟨PyErr.typeError, ?_⟩
    rw [if_neg (by decide)]

/-- A successful pass of the Loader.load line loop over a line list
means the first line was skippable and the loop also succeeded on the
tail (from some state). -/
theorem loaderLoadLines_cons_ok (loadF : String → LoaderSt → Except PyErr LoaderSt)
    (l0 : String) (rest : List String) (st st2 : LoaderSt)
    (h : loaderLoadLines loadF (l0 :: rest) st = Except.ok st2) :
    isSkippableLine l0 = true ∧ ∃ st3, loaderLoadLines loadF rest st3 = Except.ok st2 := by
  unfold loaderLoadLines at h
  rcases hd : (pyRstrip l0).data with _ | ⟨c, cs⟩
  · simp only [hd] at h
    exact ⟨by simp [isSkippableLine, hd], st, h⟩
  · simp only [hd] at h
    by_cases hc1 : c = '#' ∨ c = ';'
    · rw [if_pos hc1] at h
      refine ⟨?_, st, h⟩
      unfold isSkippableLine
      rw [hd]
      rcases hc1 with rfl | rfl <;> simp
    · rw [if_neg hc1] at h
      by_cases hc2 : c = '$'
      · rw [if_pos hc2] at h
        have hskip : isSkippableLine l0 = true := by
          unfold isSkippableLine
          rw [hd, hc2]
          simp
        refine ⟨hskip, ?_⟩
        rcases hsw : pySplitWs (pyRstrip l0) 2 with _ | ⟨cmd, args⟩
        · simp only [hsw, reduceCtorEq] at h
        · rcases args with _ | ⟨arg, rest2⟩
          · simp only [hsw, reduceCtorEq] at h
          · simp only [hsw] at h
            by_cases h3 : cmd = "$DOMAIN"
            · rw [if_pos h3] at h
              exact ⟨_, h⟩
            · rw [if_neg h3] at h
              by_cases h4 : cmd = "$INCLUDE"
              · rw [if_pos h4] at h
                rcases hld : loadF arg st with e | st4 <;> simp only [hld, reduceCtorEq] at h
                exact ⟨st4, h⟩
              · rw [if_neg h4] at h
                by_cases h5 : cmd = "$REVERSE"
                · rw [if_pos h5] at h
                  rcases hgb : getBoolean arg with e | b <;>
                    simp only [hgb, reduceCtorEq] at h
                  exact ⟨_, h⟩
                · rw [if_neg h5] at h
                  by_cases h6 : cmd = "$REVERSE4"
                  · rw [if_pos h6] at h
                    rcases hgb : getBoolean arg with e | b <;>
                      simp only [hgb, reduceCtorEq] at h
                    exact ⟨_, h⟩
                  · rw [if_neg h6] at h
                    by_cases h7 : cmd = "$REVERSE6"
                    · rw [if_pos h7] at h
                      rcases hgb : getBoolean arg with e | b <;>
                        simp only [hgb, reduceCtorEq] at h
                      exact ⟨_, h⟩
                    · rw [if_neg h7] at h
                      exact absurd h (by simp)
      · rw [if_neg hc2] at h
        obtain ⟨e, he⟩ := loaderProcessRecordLine_isError st (pyRstrip l0)
        simp only [he, reduceCtorEq] at h

/-- If the Loader.load line loop returns normally, every line of the
file was blank, a comment, or a directive. -/
theorem loaderLoadLines_ok_skippable (loadF : String → LoaderSt → Except PyErr LoaderSt)
    (lines : List String) :
    ∀ (st st2 : LoaderSt), loaderLoadLines loadF lines st = Except.ok st2 →
      ∀ l ∈ lines, isSkippableLine l = true := by
  induction lines with
  | nil =>
    intro st st2 _ l hl
    cases hl
  | cons l0 rest ih =>
    intro st st2 h l hl
    obtain ⟨hskip, st3, h3⟩ := loaderLoadLines_cons_ok loadF l0 rest st st2 h
    rcases List.mem_cons.mp hl with rfl | hmem
    · exact hskip
    · exact ih st3 st2 h3 l hmem

/-- C10: file_loader.Loader.load raises rather than returning normally
on every records file that contains at least one valid record line — the
record construction passes `reverse=` to `dnsmgr_util.Record.__init__`,
which does not accept it (`TypeError`), and the following `records.add`
does not exist on `Records` either. -/
theorem loader_record_line_always_raises (fuel : Nat)
    (files : List (String × List String)) (fn : String) (st : LoaderSt)
    (lines : List String) (hf : files.lookup fn = some lines)
    (hrec : ∃ l ∈ lines, isValidRecordLine l = true) :
    ∃ e, loaderLoadFile fuel files fn st = Except.error e := by
  cases fuel with
  | zero => exact ⟨PyErr.recursionError, rfl⟩
  | succ fuel =>
    unfold loaderLoadFile
    rw [hf]
    rcases hres : loaderLoadLines (loaderLoadFile fuel files) lines
        { st with domain := pyBasename fn } with e | st2
    · exact ⟨e, by simp only [hres]⟩
    · exfalso
      obtain ⟨l, hl, hvalid⟩ := hrec
      have hskip := loaderLoadLines_ok_skippable (loaderLoadFile fuel files) lines
        { st with domain := pyBasename fn } st2 hres l hl
      unfold isValidRecordLine at hvalid
      rw [hskip] at hvalid
      exact absurd hvalid (by simp)

/-- C10 (witness): the one-line records file `www A 192.0.2.5` makes
Loader.load raise. -/
theorem loader_record_line_always_raises_witness :
    ∃ e, loaderLoadFile 5 [("records", ["www A 192.0.2.5"])] "records"
      ⟨"records", true, true⟩ = Except.error e :=
  loader_record_line_always_raises 5 [("records", ["www A 192.0.2.5"])] "records"
    ⟨"records", true, true⟩ ["www A 192.0.2.5"] (by decide)
    ⟨"www A 192.0.2.5", by decide, by decide⟩

/-- Reading a one-entry extension of the filesystem. -/
theorem fsGet_cons (e : String × List String) (fs : List (String × List String))
    (q : String) :
    fsGet (e :: fs) q = if e.1 == q then some e.2 else fsGet fs q := by
  unfold fsGet
  by_cases hb : (e.1 == q) = true
  · simp [List.find?, hb]
  · have hf : (e.1 == q) = false := by simpa using hb
    simp [List.find?, hf]

/-- Removing one path leaves every other path readable as before. -/
theorem fsGet_erase_ne (fs : List (String × List String)) (p q : String) (h : p ≠ q) :
    fsGet (fsErase fs p) q = fsGet fs q := by
  unfold fsErase
  induction fs with
  | nil => rfl
  | cons e rest ih =>
    rw [List.filter_cons]
    by_cases hep : e.1 = p
    · have hq : (e.1 == q) = false := by
        subst hep
        simpa using h
      rw [if_neg (by simp [hep]), ih, fsGet_cons]
      simp [hq]
    · rw [if_pos (by simp [hep]), fsGet_cons, fsGet_cons, ih]

/-- The shape of a successful increaseSoaSerial run: the zone file was
read, the serial located and advanced, the patched copy installed over
the zone file, the reload issued after the install, and nothing but the
temp copy and the zone file written. -/
theorem incSoaSerial_ok_shape (today : DateM) (ziname zifile zityp tmpdir : String)
    (copyF : List String → List String) (st : MSt)
    (hok : (incSoaSerial today ziname zifile zityp tmpdir copyF st).2 = none) :
    ∃ src idx p ns,
      fsGet st.fs zifile = some src ∧
      locateAndAdvance today src = Except.ok (idx, p, ns) ∧
      (incSoaSerial today ziname zifile zityp tmpdir copyF st).1.tr =
        st.tr ++ [Action.installed zifile ns, Action.reloaded ziname] ∧
      fsGet (incSoaSerial today ziname zifile zityp tmpdir copyF st).1.fs zifile =
        some (patchSerial src idx p ns) ∧
      (∀ q, tmpdir ++ "/" ++ ziname ≠ q → zifile ≠ q →
        fsGet (incSoaSerial today ziname zifile zityp tmpdir copyF st).1.fs q =
          fsGet st.fs q) := by
  simp only [incSoaSerial] at hok ⊢
  by_cases h1 : zityp ≠ "master"
  · simp only [if_pos h1, reduceCtorEq] at hok
  · simp only [if_neg h1] at hok ⊢
    rcases hz : fsGet st.fs zifile with _ | src
    · simp only [hz, reduceCtorEq] at hok
    · simp only [hz] at hok ⊢
      by_cases hcp : copyF src ≠ src
      · simp only [if_pos hcp, reduceCtorEq] at hok
      · simp only [if_neg hcp] at hok ⊢
        have hcpe : copyF src = src := by
          by_contra hx
          exact hcp hx
        rcases hla : locateAndAdvance today (copyF src) with e2 | ⟨idx, p, ns⟩
        · simp only [hla, reduceCtorEq] at hok
        · simp only [hla] at hok ⊢
          have htmp : fsGet (fsSet (fsSet st.fs (tmpdir ++ "/" ++ ziname) (copyF src))
              (tmpdir ++ "/" ++ ziname) (patchSerial (copyF src) idx p ns))
              (tmpdir ++ "/" ++ ziname) = some (patchSerial (copyF src) idx p ns) :=
            fsGet_set_eq _ _ _
          rcases hz2 : fsGet (fsSet (fsSet st.fs (tmpdir ++ "/" ++ ziname) (copyF src))
              (tmpdir ++ "/" ++ ziname) (patchSerial (copyF src) idx p ns)) zifile
            with _ | czone
          · simp only [htmp, hz2, reduceCtorEq] at hok
          · simp only [htmp, hz2] at hok ⊢
            by_cases hsz : lineBytes (patchSerial (copyF src) idx p ns) ≠ lineBytes czone
            · simp only [if_pos hsz, reduceCtorEq] at hok
            · simp only [if_neg hsz] at hok ⊢
              refine ⟨src, idx, p, ns, rfl, by rw [← hcpe]; exact hla, by simp, ?_, ?_⟩
              · rw [hcpe]
                exact fsGet_set_eq _ _ _
              · intro q hq1 hq2
                rw [fsGet_set_ne _ _ _ _ hq2, fsGet_set_ne _ _ _ _ hq1,
                  fsGet_set_ne _ _ _ _ hq1]

/-- When the rendered content equals the existing include-file, saveZone
stops after writing the temp render: no move, no serial edit, no reload. -/
theorem saveZone_unchanged (today : DateM) (z : ZoneM) (ziname zifile zityp : String)
    (includedir includefile tmpdir : String) (copyF : List String → List String)
    (st : MSt)
    (hne1 : tmpdir ++ "/" ++ formatZoneTemplate includefile z.zonefile ≠
        includedir ++ "/" ++ formatZoneTemplate includefile z.zonefile)
    (hEq : fsGet st.fs (includedir ++ "/" ++ formatZoneTemplate includefile z.zonefile) =
        some (renderZone includedir (formatZoneTemplate includefile z.zonefile) z)) :
    saveZone today z ziname zifile zityp includedir includefile tmpdir copyF st =
      ({ st with fs := fsSet st.fs (tmpdir ++ "/" ++ formatZoneTemplate includefile z.zonefile) (renderZone includedir (formatZoneTemplate includefile z.zonefile) z) }, none) := by
  simp only [saveZone]
  rw [fsGet_set_ne _ _ _ _ hne1, hEq, fsGet_set_eq]
  simp

/-- When the rendered content differs from (or there is no) existing
include-file, saveZone moves the render into place and hands over to
increaseSoaSerial. -/
theorem saveZone_changed (today : DateM) (z : ZoneM) (ziname zifile zityp : String)
    (includedir includefile tmpdir : String) (copyF : List String → List String)
    (st : MSt)
    (hne1 : tmpdir ++ "/" ++ formatZoneTemplate includefile z.zonefile ≠
        includedir ++ "/" ++ formatZoneTemplate includefile z.zonefile)
    (hNe : fsGet st.fs (includedir ++ "/" ++ formatZoneTemplate includefile z.zonefile) ≠
        some (renderZone includedir (formatZoneTemplate includefile z.zonefile) z)) :
    saveZone today z ziname zifile zityp includedir includefile tmpdir copyF st =
      incSoaSerial today ziname zifile zityp tmpdir copyF
        ⟨fsSet (fsErase (fsSet st.fs
            (tmpdir ++ "/" ++ formatZoneTemplate includefile z.zonefile)
            (renderZone includedir (formatZoneTemplate includefile z.zonefile) z))
            (tmpdir ++ "/" ++ formatZoneTemplate includefile z.zonefile))
          (includedir ++ "/" ++ formatZoneTemplate includefile z.zonefile)
          (renderZone includedir (formatZoneTemplate includefile z.zonefile) z),
         st.tr ++ [Action.moved (includedir ++ "/" ++ formatZoneTemplate includefile z.zonefile)]⟩ := by
  simp only [saveZone]
  rw [fsGet_set_ne _ _ _ _ hne1, fsGet_set_eq]
  rcases hex : fsGet st.fs (includedir ++ "/" ++ formatZoneTemplate includefile z.zonefile)
    with _ | cur
  · simp
  · have hdec : decide (some (renderZone includedir
        (formatZoneTemplate includefile z.zonefile) z) ≠ some cur) = true := by
      rw [hex] at hNe
      simp
      intro hc
      exact hNe (by rw [hc])
    simp [hdec]
    intro hc
    exfalso
    apply hNe
    rw [hex, hc]

/-- C1: change detection in saveZone.  If the rendered include-file
content equals the existing one, nothing observable happens: no move
event, no serial edit, no reload, and both the authoritative zone file
and the include-file read back unchanged.  If it differs (or the
include-file does not exist) and the run succeeds, the trace is exactly
move, install-of-advanced-serial, reload — in that order — the
include-file now holds the render, and the zone file holds its old
content with the ten serial characters rewritten to the advanced serial.
Path hypotheses: the temp paths, the include path and the zone-file path
are pairwise distinct files. -/
theorem saveZone_change_detection (today : DateM) (z : ZoneM)
    (ziname zifile zityp : String) (includedir includefile tmpdir : String)
    (copyF : List String → List String) (st : MSt)
    (hne1 : tmpdir ++ "/" ++ formatZoneTemplate includefile z.zonefile ≠
        includedir ++ "/" ++ formatZoneTemplate includefile z.zonefile)
    (hne2 : tmpdir ++ "/" ++ ziname ≠
        includedir ++ "/" ++ formatZoneTemplate includefile z.zonefile)
    (hne3 : zifile ≠ includedir ++ "/" ++ formatZoneTemplate includefile z.zonefile)
    (hne4 : tmpdir ++ "/" ++ formatZoneTemplate includefile z.zonefile ≠ zifile) :
    (fsGet st.fs (includedir ++ "/" ++ formatZoneTemplate includefile z.zonefile) =
        some (renderZone includedir (formatZoneTemplate includefile z.zonefile) z) →
      (saveZone today z ziname zifile zityp includedir includefile tmpdir copyF st).2 =
        none ∧
      (saveZone today z ziname zifile zityp includedir includefile tmpdir copyF st).1.tr =
        st.tr ∧
      fsGet (saveZone today z ziname zifile zityp includedir includefile tmpdir
        copyF st).1.fs zifile = fsGet st.fs zifile ∧
      fsGet (saveZone today z ziname zifile zityp includedir includefile tmpdir
        copyF st).1.fs (includedir ++ "/" ++ formatZoneTemplate includefile z.zonefile) =
        fsGet st.fs (includedir ++ "/" ++ formatZoneTemplate includefile z.zonefile)) ∧
    (fsGet st.fs (includedir ++ "/" ++ formatZoneTemplate includefile z.zonefile) ≠
        some (renderZone includedir (formatZoneTemplate includefile z.zonefile) z) →
      (saveZone today z ziname zifile zityp includedir includefile tmpdir copyF st).2 =
        none →
      ∃ src idx p ns,
        (saveZone today z ziname zifile zityp includedir includefile tmpdir
          copyF st).1.tr = st.tr ++
            [Action.moved (includedir ++ "/" ++ formatZoneTemplate includefile z.zonefile),
             Action.installed zifile ns, Action.reloaded ziname] ∧
        fsGet (saveZone today z ziname zifile zityp includedir includefile tmpdir
          copyF st).1.fs (includedir ++ "/" ++ formatZoneTemplate includefile z.zonefile) =
          some (renderZone includedir (formatZoneTemplate includefile z.zonefile) z) ∧
        fsGet st.fs zifile = some src ∧
        locateAndAdvance today src = Except.ok (idx, p, ns) ∧
        fsGet (saveZone today z ziname zifile zityp includedir includefile tmpdir
          copyF st).1.fs zifile = some (patchSerial src idx p ns)) := by
  constructor
  · intro hEq
    rw [saveZone_unchanged today z ziname zifile zityp includedir includefile tmpdir
      copyF st hne1 hEq]
    exact ⟨rfl, rfl, fsGet_set_ne _ _ _ _ hne4, fsGet_set_ne _ _ _ _ hne1⟩
  · intro hNe hok
    rw [saveZone_changed today z ziname zifile zityp includedir includefile tmpdir
      copyF st hne1 hNe] at hok ⊢
    obtain ⟨src, idx, p, ns, hsrc, hla, htr, hzi, hother⟩ :=
      incSoaSerial_ok_shape today ziname zifile zityp tmpdir copyF _ hok
    refine ⟨src, idx, p, ns, ?_, ?_, ?_, hla, hzi⟩
    · rw [htr]
      simp
    · rw [hother _ hne2 hne3]
      exact fsGet_set_eq _ _ _
    · rw [← hsrc]
      rw [fsGet_set_ne _ _ _ _ (Ne.symm hne3), fsGet_erase_ne _ _ _ hne4,
        fsGet_set_ne _ _ _ _ hne4]

/-- C1 (witness): a concrete changed-zone run — no include-file exists
yet, so the render is moved into place, the serial 2024010107 is
advanced (to 2024010900, today being 2024-01-09) and installed, and the
reload follows, in that order. -/
theorem saveZone_change_detection_witness :
    ∃ src idx p ns,
      c1Run.1.tr = ([] : List Action) ++
        [Action.moved "/etc/bind/primary/include/example.com",
         Action.installed "/etc/bind/db.example.com" ns,
         Action.reloaded "example.com"] ∧
      fsGet c1Run.1.fs "/etc/bind/primary/include/example.com" =
        some (renderZone "/etc/bind/primary/include" "example.com" c1Zone) ∧
      fsGet c1St.fs "/etc/bind/db.example.com" = some src ∧
      locateAndAdvance ⟨2024, 1, 9⟩ src = Except.ok (idx, p, ns) ∧
      fsGet c1Run.1.fs "/etc/bind/db.example.com" = some (patchSerial src idx p ns) :=
  (saveZone_change_detection ⟨2024, 1, 9⟩ c1Zone "example.com"
    "/etc/bind/db.example.com" "master" "/etc/bind/primary/include" "{zone}"
    "/tmp/dnsmgr" id c1St (by decide) (by decide) (by decide) (by decide)).2
    (by decide) (by decide)

/-- C4 (counterexample): the claim as stated fails at the one valid
serial `9999123199`: the date is valid and today is not after it, the
seq is 99, so the claim demands the serial of "date plus one day with
seq 00" — but `datetime.date(9999,12,31) + timedelta(days=1)` raises
`OverflowError`, so the code produces no serial at all. -/
theorem serial_advance_max_date_cex :
    validDate ⟨9999, 12, 31⟩ = true ∧
    dateLt ⟨9999, 12, 31⟩ ⟨2026, 10, 12⟩ = false ∧
    nextSerial ⟨2026, 10, 12⟩ ⟨9999, 12, 31⟩ 99 = none := by
  refine And.intro (by decide) (And.intro (by decide) (by decide))

/-- C4 (amended): for every valid current serial date, two-digit seq and
valid local date, the computed serial follows the spec's advance rule
(today after date → today + 00; else seq ≥ 99 → next day + 00; else
seq + 1) whenever the rule's result is representable; in the single
unrepresentable case — date 9999-12-31, seq 99, today not after it —
the code raises instead of producing a serial.  Every serial produced
has exactly ten characters, all digits; advancing `2024010199` with
today not after the date yields `2024010200`. -/
theorem serial_advance_rule (today dt : DateM) (seq : Nat)
    (hv : validDate dt = true) (_hvt : validDate today = true) (hs : seq ≤ 99) :
    (¬(dateLt dt today = false ∧ 99 ≤ seq ∧ dt = ⟨9999, 12, 31⟩) →
      nextSerial today dt seq = some (specNextSerial today dt seq)) ∧
    (dateLt dt today = false → 99 ≤ seq → dt = ⟨9999, 12, 31⟩ →
      nextSerial today dt seq = none) ∧
    (∀ cs, nextSerial today dt seq = some cs →
      cs.length = 10 ∧ cs.all pyIsDigitChar = true) ∧
    nextSerial ⟨2024, 1, 1⟩ ⟨2024, 1, 1⟩ 99 = some ("2024010200".data) := by
  refine And.intro ?_ (And.intro ?_ (And.intro ?_ (by decide)))
  · intro hnot
    by_cases hlt : dateLt dt today
    · simp [nextSerial, specNextSerial, hlt]
    · have hltf : dateLt dt today = false := by simpa using hlt
      by_cases hseq : seq > 98
      · have hne : dt ≠ ⟨9999, 12, 31⟩ := by
          intro hh
          exact hnot ⟨hltf, by omega, hh⟩
        simp [nextSerial, specNextSerial, hltf, hseq, (by omega : 99 ≤ seq),
          nextDay_eq_calSucc dt hv hne]
      · simp only [nextSerial, specNextSerial, hltf, Bool.false_eq_true, if_false, hseq]
        rw [if_neg (by omega : ¬ 99 ≤ seq)]
  · intro h1 h2 h3
    subst h3
    have hnone : nextDay ⟨9999, 12, 31⟩ = none := by decide
    simp [nextSerial, h1, (by omega : seq > 98), hnone]
  · intro cs hcs
    unfold nextSerial at hcs
    by_cases h1 : dateLt dt today
    · rw [if_pos h1] at hcs
      cases hcs
      exact ⟨serial_chars_len _ _, serial_chars_digits _ _⟩
    · rw [if_neg h1] at hcs
      by_cases h2 : seq > 98
      · rw [if_pos h2] at hcs
        rcases hnd : nextDay dt with _ | d2
        · rw [hnd] at hcs
          exact absurd hcs (by simp)
        · rw [hnd] at hcs
          simp only [Option.map] at hcs
          cases hcs
          exact ⟨serial_chars_len _ _, serial_chars_digits _ _⟩
      · rw [if_neg h2] at hcs
        cases hcs
        exact ⟨serial_chars_len _ _, serial_chars_digits _ _⟩

/-- C4 (witness): the amended rule applied at the claim's own example,
serial `2024010199` with today `2024-01-01` (not after the date): the
code yields exactly the spec-rule serial, `2024010200`. -/
theorem serial_advance_rule_witness :
    nextSerial ⟨2024, 1, 1⟩ ⟨2024, 1, 1⟩ 99 =
      some (specNextSerial ⟨2024, 1, 1⟩ ⟨2024, 1, 1⟩ 99) :=
  (serial_advance_rule ⟨2024, 1, 1⟩ ⟨2024, 1, 1⟩ 99 (by decide) (by decide)
    (by decide)).1 (by decide)

/-- C2: the claim states that for both tries, after in-order insertion,
lookup returns the most-specific covering prefix and `None` for every
address covered by no inserted prefix.  The code violates this for
Mtrie6: inserting only `2001:470:dfec:1::/64` (terminal stride fill
`e = i + (128 >> 4) = i + 8`, so nibble slots 1..9 all receive the leaf)
makes lookup of `2001:470:dfec:2::1` — an address the prefix does not
cover — return the inserted object instead of `None`; and inserting
`2001:470:dfec:a::/64` raises `ValueError` outright, because the terminal
nibble is re-parsed base-10.  (The spec itself flags the base-10 parse as
a source bug in its design notes.) -/
theorem mtrie6_lookup_uncovered_bug :
    (add_prefix6 (mnodeEmpty : MNode Nat) dfec1Net 64 0).map
        (fun t => lookup6 t dfec2Addr none) = Except.ok (Except.ok (some 0)) ∧
    dfec2Addr.take 16 ≠ dfec1Net.take 16 ∧
    (add_prefix6 (mnodeEmpty : MNode Nat) dfecANet 64 0).map (fun _ => 0) =
      Except.error PyErr.valueError := by
  refine And.intro (by decide) (And.intro (by decide) (by decide))

/-- C6: the claim states a reverse PTR is synthesised only if the
record's reverse flag is true, and in particular `reverse=off` yields no
PTR.  In the code, DNS_Mgr.rebuild synthesises a PTR for every A value
unconditionally (its Record class has no reverse flag: Records.load drops
the `;reverse=off` options tail unparsed), so the PTR is routed into the
covering reverse zone anyway, alongside the forward line. -/
theorem reverse_off_ptr_still_synthesised_bug :
    c6Run.map (fun zs => zs.reverse4.map (fun z => (z.zone, z.records))) =
      Except.ok [("2.0.192.in-addr.arpa", [("192.0.2.5example.com", [c6PTR])])] ∧
    c6Run.map (fun zs => zs.zones.map (fun z => (z.zone, z.records))) =
      Except.ok [("example.com", [("wwwexample.com", [c6Fwd])])] := by
  exact And.intro (by decide) (by decide)

/-- C7: the claim states each family's include-file is replaced only when
its content differs and each family's restart is driven by its own
file's replacement.  In the code the IPv6 branch never touches the IPv6
include-file at all and re-tests `ipv4_file.replace()`: with the IPv4
file up to date and the IPv6 file stale, the run ends cleanly with no
replacement and no restart, leaving the differing IPv6 content on disk.
(The spec design notes flag exactly this `ipv4_file.replace()` test as a
source bug.) -/
theorem dhcp_ipv6_restart_gating_bug :
    c7Run.2 = none ∧ c7Run.1.tr = [] ∧
    fsGet c7Run.1.fs dhcpP6 = some ["stale"] ∧
    (["stale"] : List String) ≠ dhcpV4Content [] ∧
    (["stale"] : List String) ≠ dhcpHeader := by
  refine And.intro (by decide) (And.intro (by decide) (And.intro (by decide)
    (And.intro (by decide) (by decide))))

/-- C9: the claim states `_get_boolean` returns true on the truthy set,
false on the falsy set (case-insensitively), and raises `ValueError`
otherwise.  The accept/reject sets match the code, but on a rejected
value the source builds the error message from the unbound name `tmp`
(`'... %s ...' % tmp[1]`), so the raise statement itself raises
`NameError`, never a `ValueError`. -/
theorem get_boolean_invalid_raises_nameerror_bug :
    getBoolean "on" = Except.ok true ∧ getBoolean "TRUE" = Except.ok true ∧
    getBoolean "1" = Except.ok true ∧ getBoolean "t" = Except.ok true ∧
    getBoolean "Yes" = Except.ok true ∧
    getBoolean "off" = Except.ok false ∧ getBoolean "False" = Except.ok false ∧
    getBoolean "0" = Except.ok false ∧ getBoolean "F" = Except.ok false ∧
    getBoolean "no" = Except.ok false ∧
    getBoolean "banana" = Except.error PyErr.nameError ∧
    getBoolean "banana" ≠ Except.error PyErr.valueError := by
  refine And.intro (by decide) ?_
  refine And.intro (by decide) ?_
  refine And.intro (by decide) ?_
  refine And.intro (by decide) ?_
  refine And.intro (by decide) ?_
  refine And.intro (by decide) ?_
  refine And.intro (by decide) ?_
  refine And.intro (by decide) ?_
  refine And.intro (by decide) ?_
  refine And.intro (by decide) ?_
  exact And.intro (by decide) (by decide)

end Dnsmgr
